import Mathlib

/-!
Shallow embedding of the pattern-driven source translator scripts of this
repository: feature-file And/But conversion (02-convert-features.js), the
XPath-to-Playwright locator rule cascade and Java page-class parsing
(03-generate-pages.js, QAF variant), the step-pattern auto-implementation
(08-auto-implement-steps.js), and the brace-depth method-body scan shared by
the auto-implementation scripts.

The scripts drive everything through JavaScript regular expressions, so the
embedding includes a small executable backtracking regular-expression engine
mirroring the JS semantics the scripts rely on: ordered alternation, greedy
and lazy quantifiers, numbered capture groups, case-insensitive matching,
leftmost-first search, global exec loops, and first-occurrence replacement
with GetSubstitution.  Machine strings are modelled as `List Char`.
-/

namespace TestData

set_option maxRecDepth 1000000

abbrev Str := List Char

/-- The backtick character (used in JS template literals). -/
def backtickChar : Char := Char.ofNat 96

/-- JS whitespace class \s (the ASCII part: space, tab, newline, carriage
return, vertical tab, form feed; the scripts only meet ASCII whitespace). -/
def jsIsSpace (c : Char) : Bool :=
  c = ' ' || c = '\t' || c = '\n' || c = '\r' || c = '\x0b' || c = '\x0c'

/-- JS word class \w = [A-Za-z0-9_]. -/
def jsIsWord (c : Char) : Bool := c.isAlphanum || c = '_'

/-- JS dot: any character except a line terminator. -/
def jsIsDot (c : Char) : Bool := !(c = '\n' || c = '\r')

/-- Numbered capture groups recorded during a regex match; a later entry for
the same group shadows an earlier one, as in JS where a group's last
iteration wins. -/
abbrev Caps := List (Nat × Str)

def capGet (n : Nat) (caps : Caps) : Option Str :=
  (caps.find? (fun p => p.1 = n)).map (fun p => p.2)

def capSet (n : Nat) (v : Str) (caps : Caps) : Caps := (n, v) :: caps

/-- Regular expressions as used by the scripts: literal/class characters,
concatenation, prioritized alternation (JS tries the left branch first),
greedy or lazy Kleene star, numbered capture groups, and the end anchor. -/
inductive RE where
  | eps : RE
  | chr : (Char → Bool) → RE
  | cat : RE → RE → RE
  | alt : RE → RE → RE
  | star : Bool → RE → RE
  | group : Nat → RE → RE
  | eos : RE

/-- Structural size of a regex, used to compute an ample fuel bound. -/
def reSize : RE → Nat
  | .eps => 1
  | .eos => 1
  | .chr _ => 1
  | .cat a b => reSize a + reSize b + 1
  | .alt a b => reSize a + reSize b + 1
  | .star _ a => reSize a + 1
  | .group _ a => reSize a + 1

/-- Backtracking matcher in continuation style.  Alternation and the greedy /
lazy stars try branches in the JS priority order and return the first
success.  The recursion is structural on a fuel that every call decrements;
the entry points pass fuel ample for any run over the given input
((size + 1) * (length + 2); every nested activation either peels one regex
constructor or, for a star iteration, consumes input, and as in JS a star
iteration that consumes nothing ends the star). -/
def reRun : Nat → RE → Str → Caps → (Str → Caps → Option (Str × Caps)) →
    Option (Str × Caps)
  | 0, _, _, _, _ => none
  | _ + 1, .eps, s, caps, k => k s caps
  | _ + 1, .eos, s, caps, k => if s.isEmpty then k s caps else none
  | _ + 1, .chr p, s, caps, k =>
    match s with
    | [] => none
    | c :: rest => if p c then k rest caps else none
  | fuel + 1, .cat a b, s, caps, k =>
    reRun fuel a s caps (fun s' caps' => reRun fuel b s' caps' k)
  | fuel + 1, .alt a b, s, caps, k =>
    (reRun fuel a s caps k).orElse (fun _ => reRun fuel b s caps k)
  | fuel + 1, .group n a, s, caps, k =>
    reRun fuel a s caps
      (fun s' caps' => k s' (capSet n (s.take (s.length - s'.length)) caps'))
  | fuel + 1, .star greedy a, s, caps, k =>
    let once := fun (s' : Str) (caps' : Caps) =>
      if s'.length = s.length then k s' caps'
      else reRun fuel (.star greedy a) s' caps' k
    if greedy then (reRun fuel a s caps once).orElse (fun _ => k s caps)
    else (k s caps).orElse (fun _ => reRun fuel a s caps once)

/-- Ample fuel for a complete backtracking run of re over s. -/
def reFuel (re : RE) (s : Str) : Nat := (reSize re + 1) * (s.length + 2)

/-- Leftmost-first search (unanchored JS regex search): try each start
position in turn, and at the first position that admits a match return its
highest-priority match.  Result: (start index, matched length, captures). -/
def reSearchAux (re : RE) : Str → Nat → Option (Nat × Nat × Caps)
  | s, i =>
    match reRun (reFuel re s) re s [] (fun s' caps => some (s', caps)) with
    | some (s', caps) => some (i, s.length - s'.length, caps)
    | none =>
      match s with
      | [] => none
      | _ :: t => reSearchAux re t (i + 1)

def reSearch (re : RE) (s : Str) : Option (Nat × Nat × Caps) := reSearchAux re s 0

/-- regexp.test. -/
def reTest (re : RE) (s : Str) : Bool := (reSearch re s).isSome

/-- Match that must start at position 0: used for the ^-anchored patterns,
where JS search can only ever succeed at the start.
Result: (matched length, captures). -/
def reMatchHere (re : RE) (s : Str) : Option (Nat × Caps) :=
  (reRun (reFuel re s) re s [] (fun s' caps => some (s', caps))).map
    (fun r => (s.length - r.1.length, r.2))

/-- JS GetSubstitution for a string replacement argument:
$$, $&, $-backtick (preceding portion), $-quote (following portion), $1..$9. -/
def jsSubstitution : Str → Str → Str → Str → Caps → Str
  | [], _, _, _, _ => []
  | '$' :: '$' :: r, m, pre, post, caps => '$' :: jsSubstitution r m pre post caps
  | '$' :: '&' :: r, m, pre, post, caps => m ++ jsSubstitution r m pre post caps
  | '$' :: c :: r, m, pre, post, caps =>
    if c = backtickChar then pre ++ jsSubstitution r m pre post caps
    else if c = Char.ofNat 39 then post ++ jsSubstitution r m pre post caps
    else if c.isDigit && c ≠ '0' then
      ((capGet (c.toNat - 48) caps).getD []) ++ jsSubstitution r m pre post caps
    else '$' :: c :: jsSubstitution r m pre post caps
  | c :: r, m, pre, post, caps => c :: jsSubstitution r m pre post caps

/-- str.replace(re, repl) with a non-global regex: replace the leftmost match
only, applying GetSubstitution to the replacement string. -/
def jsReplaceFirst (re : RE) (s : Str) (repl : Str) : Str :=
  match reSearch re s with
  | none => s
  | some (i, len, caps) =>
    let pre := s.take i
    let m := (s.drop i).take len
    let post := s.drop (i + len)
    pre ++ jsSubstitution repl m pre post caps ++ post

/-- Repeated regex.exec with the /g flag: leftmost matches in order, scanning
resuming after each match (advancing one character past an empty match). -/
def execAllAux (re : RE) (fuel : Nat) (s : Str) (offset : Nat) :
    List (Nat × Str × Caps) :=
  match fuel with
  | 0 => []
  | fuel + 1 =>
    match reSearch re s with
    | none => []
    | some (i, len, caps) =>
      let m := (s.drop i).take len
      let adv := i + (if len = 0 then 1 else len)
      (offset + i, m, caps) :: execAllAux re fuel (s.drop adv) (offset + adv)

def execAll (re : RE) (s : Str) : List (Nat × Str × Caps) :=
  execAllAux re (s.length + 1) s 0

/-! Combinators used to transcribe the scripts' regex literals. -/

def reSeq (l : List RE) : RE := l.foldr RE.cat RE.eps

def reOneOf (l : List RE) : RE := l.foldr RE.alt (RE.chr (fun _ => false))

/-- Case-sensitive literal. -/
def lit (s : String) : RE := reSeq (s.data.map (fun c => RE.chr (fun d => d = c)))

/-- Case-insensitive literal (the /i flag). -/
def litCI (s : String) : RE :=
  reSeq (s.data.map (fun c => RE.chr (fun d => d.toLower = c.toLower)))

/-- Case-insensitive literal built from a runtime string (used for the
dynamically constructed placeholder regexes, whose interpolated description
is fully escaped by the scripts and hence literal). -/
def litCIStr (s : Str) : RE :=
  reSeq (s.map (fun c => RE.chr (fun d => d.toLower = c.toLower)))

def rePlus (greedy : Bool) (r : RE) : RE := .cat r (.star greedy r)

def reOpt (greedy : Bool) (r : RE) : RE := if greedy then .alt r .eps else .alt .eps r

/-- \s* -/
def wsStar : RE := .star true (.chr jsIsSpace)

/-- \s+ -/
def wsPlus : RE := rePlus true (.chr jsIsSpace)

/-- ['"] -/
def quoteChr : RE := .chr (fun c => c = '"' || c = Char.ofNat 39)

/-- (.+?) capturing as group n -/
def lazyDotPlus (n : Nat) : RE := .group n (rePlus false (.chr jsIsDot))

/-- (\d+) capturing as group n -/
def digitsGroup (n : Nat) : RE := .group n (rePlus true (.chr Char.isDigit))

/-- (\w+) capturing as group n -/
def wordGroup (n : Nat) : RE := .group n (rePlus true (.chr jsIsWord))

/-! JS string operations used by the generators. -/

def toLowerStr (s : Str) : Str := s.map Char.toLower

/-- str.trim() -/
def jsTrim (s : Str) : Str :=
  ((s.dropWhile jsIsSpace).reverse.dropWhile jsIsSpace).reverse

/-- a.includes(b) -/
def jsIncludes (a b : Str) : Bool := decide (b <:+: a)

/-- A possibly-undefined JS string (undefined modelled as none). -/
abbrev JsStr := Option Str

/-- JS a || b on strings, where undefined and the empty string are falsy. -/
def jsOr (a b : JsStr) : JsStr :=
  match a with
  | some s => if s.isEmpty then b else some s
  | none => b

/-- Template-literal interpolation of a possibly-undefined string. -/
def interp (a : JsStr) : Str := a.getD "undefined".data

/-- str.replace(/\s+/g, minus-sign): collapse each whitespace run to one dash. -/
def collapseWsDashAux : Bool → Str → Str
  | _, [] => []
  | inWs, c :: r =>
    if jsIsSpace c then (if inWs then [] else ['-']) ++ collapseWsDashAux true r
    else c :: collapseWsDashAux false r

def collapseWsDash (s : Str) : Str := collapseWsDashAux false s

/-- str.replace(pat-literal-ci, empty): drop the first case-insensitive
occurrence of pat (pat nonempty). -/
def removeFirstCI (pat : Str) : Str → Str
  | [] => []
  | c :: r =>
    if toLowerStr ((c :: r).take pat.length) = toLowerStr pat then
      r.drop (pat.length - 1)
    else c :: removeFirstCI pat r

def parseNatDigits? (s : Str) : Option Nat :=
  if s.isEmpty then none
  else if s.all Char.isDigit then
    some (s.foldl (fun n c => n * 10 + (c.toNat - 48)) 0)
  else none

/-- JS numeric coercion of a possibly-undefined string followed by a
multiplication, rendered back into a template literal (NaN when undefined or
not a digit string; the generators only ever multiply a (\d+) capture or a
parameter name). -/
def jsNumTimes (a : JsStr) (k : Nat) : Str :=
  match a.bind parseNatDigits? with
  | some n => (toString (n * k)).data
  | none => "NaN".data

/-- JS numeric coercion followed by subtracting 1 (for nth(n - 1)). -/
def jsNumSub1 (a : JsStr) : Str :=
  match a.bind parseNatDigits? with
  | some n => (toString ((n : Int) - 1)).data
  | none => "NaN".data

/-! ### 02-convert-features.js : convertFeatureContent -/

/-- str.split(sep) for a one-character separator; a JS split result is never
empty ("".split gives one empty piece). -/
def splitOnChar (sep : Char) : Str → List Str
  | [] => [[]]
  | c :: rest =>
    if c = sep then [] :: splitOnChar sep rest
    else
      match splitOnChar sep rest with
      | [] => [[c]]
      | l :: ls => (c :: l) :: ls

/-- content.split on the newline character. -/
def splitNl : Str → List Str := splitOnChar '\n'

/-- lines.join with the newline character. -/
def joinNl : List Str → Str
  | [] => []
  | [l] => l
  | l :: ls => l ++ '\n' :: joinNl ls

/-- Deterministic compilation of the anchored line regexes
^(\s*)(Given|When|Then)\s+(.*)$ and ^(\s*)(And|But)\s+(.*)$ (no /m flag, so
$ is the end of the string, and the dot excludes line terminators).  Every
alternative begins with a non-whitespace letter, so the greedy \s* matches
exactly the maximal whitespace prefix, and \s+ the maximal whitespace run
after the keyword: shortening either run only puts (.*) onto a whitespace
character without removing any line terminator standing ahead of it, so
backtracking can never turn a failure into a success.  Hence the regex
matches iff a listed keyword follows the leading whitespace, at least one
whitespace character follows the keyword, and the remainder contains no
line terminator.  Captures: (leading whitespace, keyword, remainder). -/
def matchStepKeywordLine (kws : List String) (line : Str) : Option (Str × Str × Str) :=
  let ws := line.takeWhile jsIsSpace
  let r1 := line.dropWhile jsIsSpace
  match kws.find? (fun kw => kw.data.isPrefixOf r1) with
  | none => none
  | some kw =>
    let r2 := r1.drop kw.length
    let sp := r2.takeWhile jsIsSpace
    if sp.isEmpty then none
    else
      let rest := r2.dropWhile jsIsSpace
      if rest.any (fun c => c = '\n' || c = '\r') then none
      else some (ws, kw.data, rest)

/-- Deterministic compilation of ^\s*(Scenario|Background|Feature|Examples|Rule)
(no end anchor): the alternatives begin with non-whitespace letters, so the
regex matches iff one of them follows the maximal leading whitespace. -/
def matchResetLine (line : Str) : Bool :=
  (line.dropWhile jsIsSpace) |> (fun r =>
    ["Scenario", "Background", "Feature", "Examples", "Rule"].any
      (fun kw => kw.data.isPrefixOf r))

structure FeatResult where
  content : Str
  conversions : Nat
  deriving DecidableEq, Repr

/-- The per-line loop of convertFeatureContent, threading lastKeyword (the
empty string is JS-falsy) and the conversion counter.  A Given/When/Then
line is kept and sets lastKeyword; an And/But line with a truthy lastKeyword
is rewritten to indent ++ lastKeyword ++ one space ++ step text; any other
line is kept, clearing lastKeyword on a Scenario/Background/Feature/
Examples/Rule line. -/
def convertLines : Str → List Str → List Str × Nat
  | _, [] => ([], 0)
  | lastKw, line :: rest =>
    match matchStepKeywordLine ["Given", "When", "Then"] line with
    | some (_, kw, _) =>
      let p := convertLines kw rest
      (line :: p.1, p.2)
    | none =>
      match matchStepKeywordLine ["And", "But"] line with
      | some (indent, _, stepText) =>
        if !lastKw.isEmpty then
          let p := convertLines lastKw rest
          ((indent ++ lastKw ++ ' ' :: stepText) :: p.1, p.2 + 1)
        else
          let lk := if matchResetLine line then [] else lastKw
          let p := convertLines lk rest
          (line :: p.1, p.2)
      | none =>
        let lk := if matchResetLine line then [] else lastKw
        let p := convertLines lk rest
        (line :: p.1, p.2)

/-- convertFeatureContent (02-convert-features.js, lines 84-123). -/
def convertFeatureContent (content : Str) : FeatResult :=
  let p := convertLines [] (splitNl content)
  ⟨joinNl p.1, p.2⟩

/-! ### 03-generate-pages.js (QAF variant) : convertXPathToPlaywright -/

inductive LocType where
  | semantic
  | css
  | xpath
  deriving DecidableEq, Repr

structure XConv where
  locator : Str
  type : LocType
  originalXpath : Str
  comment : Option Str
  deriving DecidableEq, Repr

/-- The cleaning step xpath.trim().replace of /^["']|["']$/g by nothing:
trim, then strip one leading and one trailing quote character (each anchored
alternative of the global regex can match at most once). -/
def cleanXPath (s : Str) : Str :=
  let t := jsTrim s
  let t := if (t.head?.map (fun c => c = '"' || c = Char.ofNat 39)).getD false
    then t.drop 1 else t
  if (t.getLast?.map (fun c => c = '"' || c = Char.ofNat 39)).getD false
    then t.dropLast else t

/-- str.split(/\s+/): pieces between maximal whitespace runs (a leading run
yields a leading empty piece and a trailing run a trailing one, as in JS).
State: inside-a-run flag, current piece (reversed), closed pieces
(reversed). -/
def jsSplitWsAux : Bool → Str → List Str → Str → List Str
  | _, cur, acc, [] => (cur.reverse :: acc).reverse
  | inWs, cur, acc, c :: r =>
    if jsIsSpace c then
      if inWs then jsSplitWsAux true cur acc r
      else jsSplitWsAux true [] (cur.reverse :: acc) r
    else jsSplitWsAux false (c :: cur) acc r

def jsSplitWs (s : Str) : List Str := jsSplitWsAux false [] [] s

/-- The template-literal escaping of the fallback branch: backticks and
dollar signs are prefixed with a backslash (two sequential global replaces
whose second never touches text introduced by the first). -/
def escapeTpl (s : Str) : Str :=
  s.foldr (fun c acc =>
    if c = backtickChar then '\\' :: backtickChar :: acc
    else if c = '$' then '\\' :: '$' :: acc
    else c :: acc) []

/-- One pattern → locator rule of the cascade: an anchored matcher over the
cleaned expression and a generator from the captures. -/
structure XRule where
  matcher : Str → Option Caps
  gen : Str → Caps → XConv

/-- Group access matches[n] for a group the pattern always binds. -/
def g (n : Nat) (caps : Caps) : Str := (capGet n caps).getD []

def mkXRule (re : RE) (f : Str → Caps → Str × LocType) : XRule :=
  { matcher := fun s => (reMatchHere re s).map (fun p => p.2),
    gen := fun s caps =>
      { locator := (f s caps).1, type := (f s caps).2,
        originalXpath := s, comment := none } }

/-- \s*=\s* -/
def eqOp : RE := reSeq [wsStar, lit "=", wsStar]

/-- ['"](.+?)['"] capturing group n -/
def quoted (n : Nat) : RE := reSeq [quoteChr, lazyDotPlus n, quoteChr]

/-- (?:text\(\)|normalize-space\(\)|\.) -/
def textNormDot : RE := reOneOf [lit "text()", lit "normalize-space()", lit "."]

/-- (?:text\(\)|\.) -/
def textDot : RE := reOneOf [lit "text()", lit "."]

/-- The ordered rule cascade of convertXPathToPlaywright
(03-generate-pages.js QAF variant, lines 496-630), one XRule per regex
pattern, in declaration order. -/
def xpathRules : List XRule := [
  -- //button[text()='x'] / [normalize-space()='x'] / [.='x']
  mkXRule (reSeq [lit "//button[", textNormDot, eqOp, quoted 1, lit "]", .eos])
    (fun _ caps =>
      ("page.getByRole('button', \x7b name: '".data ++ g 1 caps ++ "' \x7d)".data,
       .semantic)),
  -- //button[contains(text(),'x')] / [contains(.,'x')]
  mkXRule (reSeq [lit "//button[contains(", textDot, lit ",", wsStar, quoted 1,
      lit ")]", .eos])
    (fun _ caps =>
      ("page.getByRole('button', \x7b name: /".data ++ g 1 caps ++ "/i \x7d)".data,
       .semantic)),
  -- //a[text()='x'] / [normalize-space()='x'] / [.='x']
  mkXRule (reSeq [lit "//a[", textNormDot, eqOp, quoted 1, lit "]", .eos])
    (fun _ caps =>
      ("page.getByRole('link', \x7b name: '".data ++ g 1 caps ++ "' \x7d)".data,
       .semantic)),
  -- //a[contains(text(),'x')]
  mkXRule (reSeq [lit "//a[contains(", textDot, lit ",", wsStar, quoted 1,
      lit ")]", .eos])
    (fun _ caps =>
      ("page.getByRole('link', \x7b name: /".data ++ g 1 caps ++ "/i \x7d)".data,
       .semantic)),
  -- //input[@id='x']
  mkXRule (reSeq [lit "//input[@id", eqOp, quoted 1, lit "]", .eos])
    (fun _ caps => ("page.locator('#".data ++ g 1 caps ++ "')".data, .css)),
  -- //input[@placeholder='x']
  mkXRule (reSeq [lit "//input[@placeholder", eqOp, quoted 1, lit "]", .eos])
    (fun _ caps => ("page.getByPlaceholder('".data ++ g 1 caps ++ "')".data, .semantic)),
  -- //tag[@id='x']
  mkXRule (reSeq [lit "//", wordGroup 1, lit "[@id", eqOp, quoted 2, lit "]", .eos])
    (fun _ caps => ("page.locator('#".data ++ g 2 caps ++ "')".data, .css)),
  -- //tag[@data-testid='x']
  mkXRule (reSeq [lit "//", rePlus true (.chr jsIsWord), lit "[@data-testid", eqOp,
      quoted 1, lit "]", .eos])
    (fun _ caps => ("page.getByTestId('".data ++ g 1 caps ++ "')".data, .semantic)),
  -- //tag[@class='x']
  mkXRule (reSeq [lit "//", wordGroup 1, lit "[@class", eqOp, quoted 2, lit "]", .eos])
    (fun _ caps =>
      ("page.locator('".data ++ g 1 caps ++ ".".data ++
         List.intercalate ".".data (jsSplitWs (jsTrim (g 2 caps))) ++ "')".data, .css)),
  -- //tag[contains(@class,'x')]
  mkXRule (reSeq [lit "//", wordGroup 1, lit "[contains(@class,", wsStar, quoted 2,
      lit ")]", .eos])
    (fun _ caps =>
      ("page.locator('".data ++ g 1 caps ++ "[class*=\"".data ++ g 2 caps ++
         "\"]')".data, .css)),
  -- //*[text()='x'] / //*[.='x']
  mkXRule (reSeq [lit "//*[", textDot, eqOp, quoted 1, lit "]", .eos])
    (fun _ caps =>
      ("page.getByText('".data ++ g 1 caps ++ "', \x7b exact: true \x7d)".data,
       .semantic)),
  -- //*[contains(text(),'x')]
  mkXRule (reSeq [lit "//*[contains(", textDot, lit ",", wsStar, quoted 1,
      lit ")]", .eos])
    (fun _ caps => ("page.getByText('".data ++ g 1 caps ++ "')".data, .semantic)),
  -- //tag[text()='x'] / //tag[.='x']
  mkXRule (reSeq [lit "//", wordGroup 1, lit "[", textDot, eqOp, quoted 2,
      lit "]", .eos])
    (fun _ caps =>
      ("page.locator('".data ++ g 1 caps ++ "').filter(\x7b hasText: '".data ++
         g 2 caps ++ "' \x7d)".data, .css)),
  -- //tag[contains(text(),'x')]
  mkXRule (reSeq [lit "//", wordGroup 1, lit "[contains(", textDot, lit ",", wsStar,
      quoted 2, lit ")]", .eos])
    (fun _ caps =>
      ("page.locator('".data ++ g 1 caps ++ "').filter(\x7b hasText: /".data ++
         g 2 caps ++ "/i \x7d)".data, .css)),
  -- //select[@id='x'] / //select[@name='x']
  mkXRule (reSeq [lit "//select[@", reOneOf [lit "id", lit "name"], eqOp, quoted 1,
      lit "]", .eos])
    (fun _ caps => ("page.locator('select#".data ++ g 1 caps ++ "')".data, .css)),
  -- //th[@aria-colindex='n']//a
  mkXRule (reSeq [lit "//th[@aria-colindex", eqOp, quoteChr, digitsGroup 1, quoteChr,
      lit "]//a", .eos])
    (fun _ caps =>
      ("page.locator('th[aria-colindex=\"".data ++ g 1 caps ++ "\"] a')".data, .css)),
  -- //table//tr[x]/td[y] (no end anchor)
  mkXRule (reSeq [lit "//table", reOneOf [lit "//", lit "/"], lit "tr[", digitsGroup 1,
      lit "]/td[", digitsGroup 2, lit "]"])
    (fun _ caps =>
      ("page.locator('table tr:nth-child(".data ++ g 1 caps ++
         ") td:nth-child(".data ++ g 2 caps ++ ")')".data, .css))]

/-- The FALLBACK branch: keep the XPath inside a template literal, escaping
backticks and dollar signs. -/
def xpathFallback (x : Str) : XConv :=
  { locator := "page.locator(".data ++ [backtickChar] ++ escapeTpl x ++
      [backtickChar] ++ ")".data,
    type := .xpath,
    originalXpath := x,
    comment := some "XPath preserved - consider manual review".data }

/-- First matching rule of an ordered cascade, if any. -/
def firstXRule : List XRule → Str → Option XConv
  | [], _ => none
  | r :: rs, s =>
    match r.matcher s with
    | some caps => some (r.gen s caps)
    | none => firstXRule rs s

/-- convertXPathToPlaywright as a function of its ordered rule cascade. -/
def convertXPathToPlaywrightWith (rules : List XRule) (x : Str) : XConv :=
  let c := cleanXPath x
  match firstXRule rules c with
  | some r => r
  | none => xpathFallback c

/-- convertXPathToPlaywright (03-generate-pages.js QAF variant,
lines 484-640). -/
def convertXPathToPlaywright (x : Str) : XConv :=
  convertXPathToPlaywrightWith xpathRules x

/-! ### 08-auto-implement-steps.js : stepPatterns and matchStepPattern -/

structure JParam where
  name : Str
  type : Str
  deriving DecidableEq, Repr

/-- One entry of the stepPatterns table: a pattern matcher (an unanchored,
case-insensitive description.match) and the implement generator.  A
generator that would throw in JS is modelled as returning none. -/
structure StepRule where
  matcher : Str → Option Caps
  implement : Caps → List JParam → Option Str

def mkStepRule (re : RE) (f : Caps → List JParam → Option Str) : StepRule :=
  { matcher := fun s => (reSearch re s).map (fun p => p.2.2), implement := f }

/-- params[i]?.name -/
def paramName (i : Nat) (ps : List JParam) : JsStr := (ps.get? i).map (fun p => p.name)

/-- (?:the )? and friends, case-insensitively, greedy. -/
def optCI (s : String) : RE := reOpt true (litCI s)

/-- s? (the optional plural marker), case-insensitively, greedy. -/
def sOpt : RE := reOpt true (litCI "s")

/-- ['"]? -/
def optQ : RE := reOpt true quoteChr

/-- The ordered stepPatterns table (08-auto-implement-steps.js, lines
57-250), one StepRule per entry, in declaration order; all patterns carry
the /i flag and are unanchored at the start (only some end in $). -/
def stepPatterns : List StepRule := [
  -- user (?:navigates?|goes?) to ['"]?(.+?)['"]?$
  mkStepRule (reSeq [litCI "user ",
      reOneOf [reSeq [litCI "navigate", sOpt], reSeq [litCI "goe", sOpt]],
      litCI " to ", optQ, lazyDotPlus 1, optQ, .eos])
    (fun m p => some ("await page.goto('".data ++
      interp (jsOr (jsOr (capGet 1 m) (paramName 0 p)) (some "/".data)) ++
      "');\n    await page.waitForLoadState('networkidle');".data)),
  -- user (?:is on|opens?) (?:the )?['"]?(.+?)['"]? page$
  mkStepRule (reSeq [litCI "user ",
      reOneOf [litCI "is on", reSeq [litCI "open", sOpt]],
      litCI " ", optCI "the ", optQ, lazyDotPlus 1, optQ, litCI " page", .eos])
    (fun m _ =>
      let inner : Str :=
        match capGet 1 m with
        | some t => collapseWsDash (toLowerStr t)
        | none => []
      some ("await page.goto('/".data ++ inner ++
        "');\n    await page.waitForLoadState('networkidle');".data)),
  -- user clicks? (?:on )?(?:the )?['"]?(.+?)['"]?$
  mkStepRule (reSeq [litCI "user click", sOpt, litCI " ", optCI "on ",
      optCI "the ", optQ, lazyDotPlus 1, optQ, .eos])
    (fun m p =>
      let target := jsOr (capGet 1 m) (paramName 0 p)
      let tLow := target.map toLowerStr
      if (tLow.map (fun s => jsIncludes s "button".data)).getD false then
        some ("await page.getByRole('button', \x7b name: /".data ++
          jsTrim (removeFirstCI "button".data (target.getD [])) ++
          "/i \x7d).click();".data)
      else if (tLow.map (fun s => jsIncludes s "link".data)).getD false then
        some ("await page.getByRole('link', \x7b name: /".data ++
          jsTrim (removeFirstCI "link".data (target.getD [])) ++
          "/i \x7d).click();".data)
      else
        some ("await page.getByText('".data ++ interp target ++
          "').click();".data)),
  -- user clicks? (?:on )?(?:the )?button ['"]?(.+?)['"]?$
  mkStepRule (reSeq [litCI "user click", sOpt, litCI " ", optCI "on ",
      optCI "the ", litCI "button ", optQ, lazyDotPlus 1, optQ, .eos])
    (fun m p => some ("await page.getByRole('button', \x7b name: '".data ++
      interp (jsOr (capGet 1 m) (paramName 0 p)) ++ "' \x7d).click();".data)),
  -- user clicks? (?:on )?(?:the )?link ['"]?(.+?)['"]?$
  mkStepRule (reSeq [litCI "user click", sOpt, litCI " ", optCI "on ",
      optCI "the ", litCI "link ", optQ, lazyDotPlus 1, optQ, .eos])
    (fun m p => some ("await page.getByRole('link', \x7b name: '".data ++
      interp (jsOr (capGet 1 m) (paramName 0 p)) ++ "' \x7d).click();".data)),
  -- user clicks? (?:on )?(?:the )?tab ['"]?(.+?)['"]?$
  mkStepRule (reSeq [litCI "user click", sOpt, litCI " ", optCI "on ",
      optCI "the ", litCI "tab ", optQ, lazyDotPlus 1, optQ, .eos])
    (fun m p => some ("await page.getByRole('tab', \x7b name: '".data ++
      interp (jsOr (capGet 1 m) (paramName 0 p)) ++ "' \x7d).click();".data)),
  -- user clicks? (?:on )?(?:an? )?Account$
  mkStepRule (reSeq [litCI "user click", sOpt, litCI " ", optCI "on ",
      reOpt true (reSeq [litCI "a", reOpt true (litCI "n"), litCI " "]),
      litCI "Account", .eos])
    (fun _ _ => some "await page.locator('table tbody tr').first().click();".data),
  -- user (?:enters?|types?|inputs?) ['"]?(.+?)['"]? (?:in|into) (?:the )?['"]?(.+?)['"]?(?: field)?$
  mkStepRule (reSeq [litCI "user ",
      reOneOf [reSeq [litCI "enter", sOpt], reSeq [litCI "type", sOpt],
        reSeq [litCI "input", sOpt]],
      litCI " ", optQ, lazyDotPlus 1, optQ, litCI " ",
      reOneOf [litCI "in", litCI "into"], litCI " ", optCI "the ",
      optQ, lazyDotPlus 2, optQ, reOpt true (litCI " field"), .eos])
    (fun m p =>
      let value := jsOr (capGet 1 m) (paramName 0 p)
      let field := jsOr (capGet 2 m) (paramName 1 p)
      match value with
      | none => none
      | some v =>
        some ("await page.getByLabel('".data ++ interp field ++
          "').fill(".data ++
          (if v.head? = some (Char.ofNat 123) then interp (paramName 0 p)
           else "'".data ++ v ++ "'".data) ++ ");".data)),
  -- user (?:enters?|types?|fills?) ['"]?(.+?)['"]?$
  mkStepRule (reSeq [litCI "user ",
      reOneOf [reSeq [litCI "enter", sOpt], reSeq [litCI "type", sOpt],
        reSeq [litCI "fill", sOpt]],
      litCI " ", optQ, lazyDotPlus 1, optQ, .eos])
    (fun m p =>
      let value := (jsOr (paramName 0 p)
        (some ("'".data ++ interp (capGet 1 m) ++ "'".data))).getD []
      some ("await page.locator('input:focus, textarea:focus').fill(".data ++
        value ++ ");".data)),
  -- user clears? (?:the )?['"]?(.+?)['"]?(?: field)?$
  mkStepRule (reSeq [litCI "user clear", sOpt, litCI " ", optCI "the ",
      optQ, lazyDotPlus 1, optQ, reOpt true (litCI " field"), .eos])
    (fun m p => some ("await page.getByLabel('".data ++
      interp (jsOr (capGet 1 m) (paramName 0 p)) ++ "').clear();".data)),
  -- user selects? ['"]?(.+?)['"]? from (?:the )?['"]?(.+?)['"]?(?: dropdown)?$
  mkStepRule (reSeq [litCI "user select", sOpt, litCI " ", optQ, lazyDotPlus 1,
      optQ, litCI " from ", optCI "the ", optQ, lazyDotPlus 2, optQ,
      reOpt true (litCI " dropdown"), .eos])
    (fun m p =>
      some ("await page.getByLabel('".data ++
        interp (jsOr (capGet 2 m) (paramName 1 p)) ++
        "').selectOption('".data ++
        interp (jsOr (capGet 1 m) (paramName 0 p)) ++ "');".data)),
  -- user selects? (?:the )?option ['"]?(.+?)['"]?$
  mkStepRule (reSeq [litCI "user select", sOpt, litCI " ", optCI "the ",
      litCI "option ", optQ, lazyDotPlus 1, optQ, .eos])
    (fun m p => some ("await page.getByRole('option', \x7b name: '".data ++
      interp (jsOr (capGet 1 m) (paramName 0 p)) ++ "' \x7d).click();".data)),
  -- user (?:checks?|selects?) (?:the )?['"]?(.+?)['"]? checkbox$
  mkStepRule (reSeq [litCI "user ",
      reOneOf [reSeq [litCI "check", sOpt], reSeq [litCI "select", sOpt]],
      litCI " ", optCI "the ", optQ, lazyDotPlus 1, optQ,
      litCI " checkbox", .eos])
    (fun m p => some ("await page.getByLabel('".data ++
      interp (jsOr (capGet 1 m) (paramName 0 p)) ++ "').check();".data)),
  -- user unchecks? (?:the )?['"]?(.+?)['"]? checkbox$
  mkStepRule (reSeq [litCI "user uncheck", sOpt, litCI " ", optCI "the ",
      optQ, lazyDotPlus 1, optQ, litCI " checkbox", .eos])
    (fun m p => some ("await page.getByLabel('".data ++
      interp (jsOr (capGet 1 m) (paramName 0 p)) ++ "').uncheck();".data)),
  -- user waits? for (?:the )?page to load$
  mkStepRule (reSeq [litCI "user wait", sOpt, litCI " for ", optCI "the ",
      litCI "page to load", .eos])
    (fun _ _ => some "await page.waitForLoadState('networkidle');".data),
  -- user waits? for (\d+) seconds?$
  mkStepRule (reSeq [litCI "user wait", sOpt, litCI " for ", digitsGroup 1,
      litCI " second", sOpt, .eos])
    (fun m p => some ("await page.waitForTimeout(".data ++
      jsNumTimes (jsOr (capGet 1 m) (paramName 0 p)) 1000 ++ ");".data)),
  -- user waits? (?:for )?(?:the )?['"]?(.+?)['"]? (?:to be )?(?:visible|displayed)$
  mkStepRule (reSeq [litCI "user wait", sOpt, litCI " ", optCI "for ",
      optCI "the ", optQ, lazyDotPlus 1, optQ, litCI " ", optCI "to be ",
      reOneOf [litCI "visible", litCI "displayed"], .eos])
    (fun m p => some ("await page.getByText('".data ++
      interp (jsOr (capGet 1 m) (paramName 0 p)) ++
      "').waitFor(\x7b state: 'visible' \x7d);".data)),
  -- (?:user )?(?:should )?sees? (?:the )?(?:text )?['"]?(.+?)['"]?$
  mkStepRule (reSeq [optCI "user ", optCI "should ", litCI "see", sOpt,
      litCI " ", optCI "the ", optCI "text ", optQ, lazyDotPlus 1, optQ, .eos])
    (fun m p => some ("await expect(page.getByText('".data ++
      interp (jsOr (capGet 1 m) (paramName 0 p)) ++ "')).toBeVisible();".data)),
  -- (?:user )?(?:should )?sees? (?:the )?['"]?(.+?)['"]? (?:is )?displayed$
  mkStepRule (reSeq [optCI "user ", optCI "should ", litCI "see", sOpt,
      litCI " ", optCI "the ", optQ, lazyDotPlus 1, optQ, litCI " ",
      optCI "is ", litCI "displayed", .eos])
    (fun m p => some ("await expect(page.getByText('".data ++
      interp (jsOr (capGet 1 m) (paramName 0 p)) ++ "')).toBeVisible();".data)),
  -- (?:the )?page title should (?:be|contain) ['"]?(.+?)['"]?$
  mkStepRule (reSeq [optCI "the ", litCI "page title should ",
      reOneOf [litCI "be", litCI "contain"], litCI " ", optQ, lazyDotPlus 1,
      optQ, .eos])
    (fun m p => some ("await expect(page).toHaveTitle(/".data ++
      interp (jsOr (capGet 1 m) (paramName 0 p)) ++ "/i);".data)),
  -- (?:the )?URL should contain ['"]?(.+?)['"]?$
  mkStepRule (reSeq [optCI "the ", litCI "URL should contain ", optQ,
      lazyDotPlus 1, optQ, .eos])
    (fun m p => some ("await expect(page).toHaveURL(/".data ++
      interp (jsOr (capGet 1 m) (paramName 0 p)) ++ "/);".data)),
  -- (?:user )?validates? (?:the )?['"]?(.+?)['"]?(?: tab)?(?: fields)?$
  mkStepRule (reSeq [optCI "user ", litCI "validate", sOpt, litCI " ",
      optCI "the ", optQ, lazyDotPlus 1, optQ, reOpt true (litCI " tab"),
      reOpt true (litCI " fields"), .eos])
    (fun m p =>
      let sect := (jsOr (jsOr (capGet 1 m) (paramName 0 p))
        (some "section".data)).getD "section".data
      some ("// Validate ".data ++ sect ++
        "\n    await expect(page.locator('[data-testid=\"".data ++
        collapseWsDash (toLowerStr sect) ++
        "\"]')).toBeVisible();".data)),
  -- (?:the )?['"]?(.+?)['"]? should be (?:visible|displayed)$
  mkStepRule (reSeq [optCI "the ", optQ, lazyDotPlus 1, optQ,
      litCI " should be ", reOneOf [litCI "visible", litCI "displayed"], .eos])
    (fun m p => some ("await expect(page.getByText('".data ++
      interp (jsOr (capGet 1 m) (paramName 0 p)) ++ "')).toBeVisible();".data)),
  -- (?:the )?['"]?(.+?)['"]? should not be (?:visible|displayed)$
  mkStepRule (reSeq [optCI "the ", optQ, lazyDotPlus 1, optQ,
      litCI " should not be ", reOneOf [litCI "visible", litCI "displayed"],
      .eos])
    (fun m p => some ("await expect(page.getByText('".data ++
      interp (jsOr (capGet 1 m) (paramName 0 p)) ++ "')).toBeHidden();".data)),
  -- (?:the )?['"]?(.+?)['"]? should (?:have|contain) (?:text|value) ['"]?(.+?)['"]?$
  mkStepRule (reSeq [optCI "the ", optQ, lazyDotPlus 1, optQ,
      litCI " should ", reOneOf [litCI "have", litCI "contain"], litCI " ",
      reOneOf [litCI "text", litCI "value"], litCI " ", optQ, lazyDotPlus 2,
      optQ, .eos])
    (fun m p => some ("await expect(page.getByLabel('".data ++
      interp (capGet 1 m) ++ "')).toHaveValue('".data ++
      interp (jsOr (capGet 2 m) (paramName 0 p)) ++ "');".data)),
  -- account details should be displayed$
  mkStepRule (reSeq [litCI "account details should be displayed", .eos])
    (fun _ _ => some ("await expect(page.locator('[data-testid=\"account-details\"]')).toBeVisible();\n    // Or use a more specific locator based on your app structure".data)),
  -- user logs? in(?:to)? (?:with )?(?:default )?(?:credentials)?
  mkStepRule (reSeq [litCI "user log", sOpt, litCI " in",
      reOpt true (litCI "to"), litCI " ", optCI "with ", optCI "default ",
      reOpt true (litCI "credentials")])
    (fun _ _ => some ("// Login with default credentials\n    await page.getByLabel('Username').fill(process.env.DEFAULT_USER || 'testuser');\n    await page.getByLabel('Password').fill(process.env.DEFAULT_PASS || 'testpass');\n    await page.getByRole('button', \x7b name: /login|sign in/i \x7d).click();\n    await page.waitForLoadState('networkidle');".data)),
  -- user logs? out$
  mkStepRule (reSeq [litCI "user log", sOpt, litCI " out", .eos])
    (fun _ _ => some ("await page.getByRole('button', \x7b name: /logout|sign out/i \x7d).click();\n    await page.waitForLoadState('networkidle');".data)),
  -- user clicks? (?:on )?row (\d+)
  mkStepRule (reSeq [litCI "user click", sOpt, litCI " ", optCI "on ",
      litCI "row ", digitsGroup 1])
    (fun m p => some ("await page.locator('table tbody tr').nth(".data ++
      jsNumSub1 (jsOr (capGet 1 m) (paramName 0 p)) ++ ").click();".data)),
  -- user clicks? (?:on )?(?:the )?first row
  mkStepRule (reSeq [litCI "user click", sOpt, litCI " ", optCI "on ",
      optCI "the ", litCI "first row"])
    (fun _ _ => some "await page.locator('table tbody tr').first().click();".data),
  -- user scrolls? (?:to )?(?:the )?(?:bottom|end)
  mkStepRule (reSeq [litCI "user scroll", sOpt, litCI " ", optCI "to ",
      optCI "the ", reOneOf [litCI "bottom", litCI "end"]])
    (fun _ _ => some "await page.evaluate(() => window.scrollTo(0, document.body.scrollHeight));".data),
  -- user scrolls? (?:to )?(?:the )?top
  mkStepRule (reSeq [litCI "user scroll", sOpt, litCI " ", optCI "to ",
      optCI "the ", litCI "top"])
    (fun _ _ => some "await page.evaluate(() => window.scrollTo(0, 0));".data),
  -- user presses? (?:the )?(?:Enter|Return) key$
  mkStepRule (reSeq [litCI "user presse", sOpt, litCI " ",
      optCI "the ", reOneOf [litCI "Enter", litCI "Return"], litCI " key", .eos])
    (fun _ _ => some "await page.keyboard.press('Enter');".data),
  -- user presses? (?:the )?Tab key$
  mkStepRule (reSeq [litCI "user presse", sOpt, litCI " ",
      optCI "the ", litCI "Tab key", .eos])
    (fun _ _ => some "await page.keyboard.press('Tab');".data),
  -- user presses? (?:the )?Escape key$
  mkStepRule (reSeq [litCI "user presse", sOpt, litCI " ",
      optCI "the ", litCI "Escape key", .eos])
    (fun _ _ => some "await page.keyboard.press('Escape');".data)]

/-- The matching loop of matchStepPattern as a function of its rule table:
first rule whose matcher accepts wins; a generator that throws (none) is
caught and treated as no match, continuing with the later rules; none when
every rule fails. -/
def matchStepPatternWith : List StepRule → Str → List JParam → Option Str
  | [], _, _ => none
  | r :: rs, desc, params =>
    match r.matcher desc with
    | none => matchStepPatternWith rs desc params
    | some caps =>
      match r.implement caps params with
      | some out => some out
      | none => matchStepPatternWith rs desc params

/-- matchStepPattern (08-auto-implement-steps.js, lines 255-268). -/
def matchStepPattern (desc : Str) (params : List JParam) : Option Str :=
  matchStepPatternWith stepPatterns desc params

/-! ### 08-auto-implement-steps.js : parseJavaSteps and
updateTypeScriptStepFile (the brace-depth scan is shared verbatim with
parseJavaMethodsWithBody of the auto-implement page script). -/

/-- The brace-depth method-body scan (08-auto-implement-steps.js lines
286-295, identical loop in parseJavaMethodsWithBody): starting at startIndex
with depth 1, advance one character per iteration, incrementing the depth on
each opening brace and decrementing it on each closing brace, and stop when
the depth returns to zero or the end of the text is reached.  The while loop
is embedded with an explicit fuel bounding the number of iterations still
allowed; callers pass the remaining input length, which suffices because the
loop advances one character per iteration. -/
def findBodyEnd (content : Str) : Nat → Nat → Nat → Nat
  | 0, endIndex, _ => endIndex
  | fuel + 1, endIndex, braceCount =>
    if braceCount = 0 ∨ content.length ≤ endIndex then endIndex
    else
      let c := content.getD endIndex ' '
      let b1 := if c = Char.ofNat 123 then braceCount + 1 else braceCount
      let b2 := if c = Char.ofNat 125 then b1 - 1 else b1
      findBodyEnd content fuel (endIndex + 1) b2

/-- JS str.substring(a, b): the smaller argument is the start (JS swaps a
larger start with the end), both clamped to the string. -/
def jsSubstring (s : Str) (a b : Nat) : Str :=
  (s.drop (min a b)).take (max a b - min a b)

structure JStep where
  description : Str
  methodName : Str
  params : List JParam
  body : Str
  deriving DecidableEq, Repr

/-- The step-annotation regex of parseJavaSteps (case-sensitive):
@(?:QAFTestStep\s*\(\s*description\s*=\s*|Given|When|Then)\s*\(\s*["'](.+?)["']
\s*\)\s*(?:public\s+)?(?:void|boolean|String|\w+)\s+(\w+)\s*\(([^)]*)\)\s*\{ -/
def stepRegexRE : RE := reSeq [lit "@",
  reOneOf [reSeq [lit "QAFTestStep", wsStar, lit "(", wsStar,
      lit "description", wsStar, lit "=", wsStar],
    lit "Given", lit "When", lit "Then"],
  wsStar, lit "(", wsStar, quoteChr, lazyDotPlus 1, quoteChr, wsStar,
  lit ")", wsStar, reOpt true (reSeq [lit "public", wsPlus]),
  reOneOf [lit "void", lit "boolean", lit "String", rePlus true (.chr jsIsWord)],
  wsPlus, wordGroup 2, wsStar, lit "(",
  .group 3 (.star true (.chr (fun c => c ≠ ')'))), lit ")", wsStar, lit "\x7b"]

/-- The parameter parsing of parseJavaSteps: split the raw parameter text on
commas, drop blank entries, take the last whitespace-separated token of each
entry as the name, and derive the TS type from its first token. -/
def parseStepParams (paramsStr : Str) : List JParam :=
  ((splitOnChar ',' paramsStr).filter (fun p => !(jsTrim p).isEmpty)).map
    (fun p =>
      let parts := jsSplitWs (jsTrim p)
      let t0 := toLowerStr ((parts.head?).getD [])
      let ty := if jsIncludes t0 "string".data then "string".data
        else if jsIncludes t0 "int".data then "number".data
        else "string".data
      { name := (parts.getLast?).getD [], type := ty })

/-- parseJavaSteps (08-auto-implement-steps.js, lines 273-315): every
exec-loop match of the annotation regex yields one step whose body runs from
just after the opening brace to the brace-scan end. -/
def parseJavaSteps (content : Str) : List JStep :=
  (execAll stepRegexRE content).map (fun mt =>
    let startIndex := mt.1 + mt.2.1.length
    let caps := mt.2.2
    let endIndex := findBodyEnd content (content.length - startIndex) startIndex 1
    { description := g 1 caps,
      methodName := g 2 caps,
      params := parseStepParams (g 3 caps),
      body := jsTrim (jsSubstring content startIndex (endIndex - 1)) })

/-- The dynamically built TODO-placeholder regex of updateTypeScriptStepFile:
(Given|When|Then)\s*\(\s*['"]DESC['"]\s*,\s*async[^\x7b]+\x7b[^\x7d]*TODO[^\x7d]*\x7d
with the /i flag, DESC standing for the step description with every regex
metacharacter backslash-escaped, hence a case-insensitive literal. -/
def todoPatternRE (desc : Str) : RE := reSeq [
  .group 1 (reOneOf [litCI "Given", litCI "When", litCI "Then"]),
  wsStar, lit "(", wsStar, quoteChr, litCIStr desc, quoteChr, wsStar,
  lit ",", wsStar, litCI "async",
  rePlus true (.chr (fun c => c ≠ Char.ofNat 123)), lit "\x7b",
  .star true (.chr (fun c => c ≠ Char.ofNat 125)), litCI "TODO",
  .star true (.chr (fun c => c ≠ Char.ofNat 125)), lit "\x7d"]

/-- The inline step-type inference of updateTypeScriptStepFile
(lines 352-356). -/
def inferStepTypeTS (desc : Str) : Str :=
  let d := toLowerStr desc
  if "user should".data.isPrefixOf d || jsIncludes d "should be".data
      || jsIncludes d "validates".data then "Then".data
  else if jsIncludes d "given".data || jsIncludes d "logged in".data then
    "Given".data
  else "When".data

/-- The fixture-parameter text of the replacement step. -/
def tsParamsOf (ps : List JParam) : Str :=
  if ps.isEmpty then "\x7b page \x7d".data
  else "\x7b page \x7d, ".data ++
    List.intercalate ", ".data (ps.map (fun p => p.name ++ ": ".data ++ p.type))

/-- The replacement step text built by updateTypeScriptStepFile
(lines 358-360). -/
def newStepText (step : JStep) (impl : Str) : Str :=
  inferStepTypeTS step.description ++ "('".data ++ step.description ++
  "', async (".data ++ tsParamsOf step.params ++ ") => \x7b\n    ".data ++
  impl ++ "\n  \x7d)".data

structure UpdResult where
  content : Str
  stepsImplemented : Nat
  stepsSkipped : Nat
  deriving DecidableEq, Repr

/-- One iteration of the javaSteps.forEach loop of updateTypeScriptStepFile:
return unchanged (and untallied) when the TODO placeholder pattern does not
match the current content; otherwise either implement the step, replacing
the first placeholder occurrence, or record a skip. -/
def updStep (acc : UpdResult) (step : JStep) : UpdResult :=
  let re := todoPatternRE step.description
  if !reTest re acc.content then acc
  else
    match matchStepPattern step.description step.params with
    | some impl =>
      { content := jsReplaceFirst re acc.content (newStepText step impl),
        stepsImplemented := acc.stepsImplemented + 1,
        stepsSkipped := acc.stepsSkipped }
    | none => { acc with stepsSkipped := acc.stepsSkipped + 1 }

/-- updateTypeScriptStepFile (08-auto-implement-steps.js, lines 320-375) as
a content transformation carrying the implemented / skipped tallies. -/
def updateTypeScriptStepFile (tsContent javaContent : Str) : UpdResult :=
  (parseJavaSteps javaContent).foldl updStep ⟨tsContent, 0, 0⟩

/-! ### 03-generate-pages.js (QAF variant) : parseJavaPageClass with its
conversionStats tallies. -/

/-- (?:public\s+)?class\s+(\w+)(?:\s+extends\s+\w+)? -/
def classNameRE : RE := reSeq [reOpt true (reSeq [lit "public", wsPlus]),
  lit "class", wsPlus, wordGroup 1,
  reOpt true (reSeq [wsPlus, lit "extends", wsPlus, rePlus true (.chr jsIsWord)])]

/-- Pattern 1, QAF style with double quotes: (?:public\s+)?static\s+final\s+
By\s+(\w+)\s*=\s*By\.xpath\s*\(\s*xpathExpression\s*:\s*"([^"]+)"\s*\) -/
def qafXpathRE : RE := reSeq [reOpt true (reSeq [lit "public", wsPlus]),
  lit "static", wsPlus, lit "final", wsPlus, lit "By", wsPlus, wordGroup 1,
  wsStar, lit "=", wsStar, lit "By.xpath", wsStar, lit "(", wsStar,
  lit "xpathExpression", wsStar, lit ":", wsStar, lit "\"",
  .group 2 (rePlus true (.chr (fun c => c ≠ '"'))), lit "\"", wsStar, lit ")"]

/-- Pattern 1b, QAF style with single quotes. -/
def qafXpathSqRE : RE := reSeq [reOpt true (reSeq [lit "public", wsPlus]),
  lit "static", wsPlus, lit "final", wsPlus, lit "By", wsPlus, wordGroup 1,
  wsStar, lit "=", wsStar, lit "By.xpath", wsStar, lit "(", wsStar,
  .chr (fun c => c = Char.ofNat 39),
  .group 2 (rePlus true (.chr (fun c => c ≠ Char.ofNat 39))),
  .chr (fun c => c = Char.ofNat 39), wsStar, lit ")"]

/-- Pattern 2, simple By.xpath: (?:public\s+)?static\s+final\s+By\s+(\w+)
\s*=\s*By\.xpath\s*\(\s*["'](.+?)["']\s*\) -/
def simpleXpathRE : RE := reSeq [reOpt true (reSeq [lit "public", wsPlus]),
  lit "static", wsPlus, lit "final", wsPlus, lit "By", wsPlus, wordGroup 1,
  wsStar, lit "=", wsStar, lit "By.xpath", wsStar, lit "(", wsStar,
  quoteChr, lazyDotPlus 2, quoteChr, wsStar, lit ")"]

/-- Patterns 3-5: @FindBy\s*\(\s*ATTR\s*=\s*["'](.+?)["']\s*\)\s*
(?:private|public|protected)?\s*(?:WebElement|QAFWebElement)\s+(\w+) -/
def findByAttrRE (attr : String) : RE := reSeq [lit "@FindBy", wsStar, lit "(",
  wsStar, lit attr, wsStar, lit "=", wsStar, quoteChr, lazyDotPlus 1, quoteChr,
  wsStar, lit ")", wsStar,
  reOpt true (reOneOf [lit "private", lit "public", lit "protected"]), wsStar,
  reOneOf [lit "WebElement", lit "QAFWebElement"], wsPlus, wordGroup 2]

/-- public\s+(?:void|boolean|String|int|WebElement|List<\w+>|\w+)\s+(\w+)
\s*\(([^)]*)\) -/
def pageMethodRE : RE := reSeq [lit "public", wsPlus,
  reOneOf [lit "void", lit "boolean", lit "String", lit "int", lit "WebElement",
    reSeq [lit "List<", rePlus true (.chr jsIsWord), lit ">"],
    rePlus true (.chr jsIsWord)],
  wsPlus, wordGroup 1, wsStar, lit "(",
  .group 2 (.star true (.chr (fun c => c ≠ ')'))), lit ")"]

/-- methodName.match of ^(get|set|is)[A-Z]. -/
def isGetterName (name : Str) : Bool :=
  ["get", "set", "is"].any (fun p =>
    p.data.isPrefixOf name &&
    ((name.drop p.length).head?.map Char.isUpper).getD false)

def pageSkipNames : List String :=
  ["toString", "equals", "hashCode", "getClass", "wait", "notify",
   "openPage", "launchPage"]

structure PageLocator where
  name : Str
  xpath : Str
  playwright : Str
  type : LocType
  comment : Option Str
  deriving DecidableEq, Repr

structure PageStats where
  semantic : Nat
  css : Nat
  xpath : Nat
  deriving DecidableEq, Repr

/-- conversionStats[conversion.type]++ -/
def bumpStat (st : PageStats) (t : LocType) : PageStats :=
  match t with
  | .semantic => { st with semantic := st.semantic + 1 }
  | .css => { st with css := st.css + 1 }
  | .xpath => { st with xpath := st.xpath + 1 }

structure PageParse where
  className : Str
  locators : List PageLocator
  methods : List (Str × Str)
  stats : PageStats
  deriving DecidableEq, Repr

/-- Push one converted By.xpath locator and bump its classification tally
(field name, raw xpath). -/
def pushXpathLoc (acc : List PageLocator × PageStats) (nameX : Str × Str) :
    List PageLocator × PageStats :=
  let conv := convertXPathToPlaywright nameX.2
  (acc.1 ++ [⟨nameX.1, nameX.2, conv.locator, conv.type, conv.comment⟩],
   bumpStat acc.2 conv.type)

/-- Same, but a no-op when a locator with this field name already exists
(the `exists` dedup guard of patterns 1b and 2). -/
def pushXpathLocDedup (acc : List PageLocator × PageStats) (nameX : Str × Str) :
    List PageLocator × PageStats :=
  if acc.1.any (fun l => l.name = nameX.1) then acc else pushXpathLoc acc nameX

/-- The five locator exec loops of parseJavaPageClass, in order: pattern 1
double-quoted QAF, pattern 1b single-quoted QAF and pattern 2 simple (these
two with the field-name dedup guard), then the three @FindBy patterns
without one.  Each push bumps the matching conversionStats tally. -/
def pageLocAccum (content : Str) : List PageLocator × PageStats :=
  let acc0 : List PageLocator × PageStats := ([], ⟨0, 0, 0⟩)
  let acc1 := (execAll qafXpathRE content).foldl
    (fun acc mt => pushXpathLoc acc (g 1 mt.2.2, g 2 mt.2.2)) acc0
  let acc2 := (execAll qafXpathSqRE content).foldl
    (fun acc mt => pushXpathLocDedup acc (g 1 mt.2.2, g 2 mt.2.2)) acc1
  let acc3 := (execAll simpleXpathRE content).foldl
    (fun acc mt => pushXpathLocDedup acc (g 1 mt.2.2, g 2 mt.2.2)) acc2
  let acc4 := (execAll (findByAttrRE "xpath") content).foldl
    (fun acc mt => pushXpathLoc acc (g 2 mt.2.2, g 1 mt.2.2)) acc3
  let acc5 := (execAll (findByAttrRE "id") content).foldl
    (fun acc mt =>
      (acc.1 ++ [⟨g 2 mt.2.2, "id=".data ++ g 1 mt.2.2,
        "page.locator('#".data ++ g 1 mt.2.2 ++ "')".data, .css, none⟩],
       bumpStat acc.2 .css)) acc4
  (execAll (findByAttrRE "css") content).foldl
    (fun acc mt =>
      (acc.1 ++ [⟨g 2 mt.2.2, "css=".data ++ g 1 mt.2.2,
        "page.locator('".data ++ g 1 mt.2.2 ++ "')".data, .css, none⟩],
       bumpStat acc.2 .css)) acc5

/-- parseJavaPageClass (03-generate-pages.js QAF variant, lines 646-788)
together with the conversionStats tallies its exec loops perform: the
locator loops of pageLocAccum, then the public-method loop with its skip
list and parameterless getter/setter filter. -/
def parseJavaPageClass (content : Str) : PageParse :=
  let className := match reSearch classNameRE content with
    | some r => g 1 r.2.2
    | none => []
  let methods := ((execAll pageMethodRE content).map
      (fun mt => (g 1 mt.2.2, g 2 mt.2.2))).filter
    (fun m => !(pageSkipNames.any (fun n => n.data = m.1)) &&
      !(isGetterName m.1 && m.2.isEmpty))
  ⟨className, (pageLocAccum content).1, methods, (pageLocAccum content).2⟩

/-- Each extracted locator entry carries exactly one classification tally:
the tallies sum to the entry count. -/
def locTallyInv (acc : List PageLocator × PageStats) : Prop :=
  acc.2.semantic + acc.2.css + acc.2.xpath = acc.1.length

/-! ### 02-convert-features.js : top-level control flow (config checks,
process.exit, and processDirectory's walk with its per-file try/catch). -/

structure FeatReport where
  files : List (Str × Str × Nat)
  errors : List (Str × Str)
  deriving DecidableEq, Repr

/-- One entry met by processDirectory's walk, in traversal order.  A
.feature file's read / convert / write runs under the per-file try/catch,
so its outcome is the Except; but every entry's fs.statSync call, and a
subdirectory's fs.readdirSync and fs.mkdirSync calls, run outside that
try/catch, so an exception there is uncaught (the uncaught constructor
carries it); any other file is ignored by the walk. -/
inductive WalkItem where
  | feature : Str → Except Str Str → WalkItem
  | uncaught : Str → Str → WalkItem
  | skipped : Str → WalkItem

/-- Is this walk entry one whose fs call throws outside the try/catch? -/
def isUncaughtItem : WalkItem → Bool
  | .uncaught _ _ => true
  | _ => false

/-- Is this walk entry a .feature file? -/
def isFeatureItem : WalkItem → Bool
  | .feature _ _ => true
  | _ => false

/-- processDirectory (02-convert-features.js, lines 126-186) over its walk.
A .feature unit whose read / convert / write raises is recorded under
errors and the walk continues (the per-file try/catch of lines 150-183);
but an exception from fs.readdirSync (line 131), fs.statSync (line 135) or
the directory-branch fs.mkdirSync (line 144) escapes the forEach: the walk
stops there, nothing is recorded for the failing entry, and the exception
propagates (the second component).  Units processed before the abort keep
their recorded outcomes and written outputs (the first component); the
report itself is only written after a crash-free walk. -/
def processFeatureDir : List WalkItem → FeatReport × Option Str
  | [] => (⟨[], []⟩, none)
  | .skipped _ :: rest => processFeatureDir rest
  | .uncaught _ e :: _ => (⟨[], []⟩, some e)
  | .feature name content :: rest =>
    let r := processFeatureDir rest
    match content with
    | .ok c =>
      let conv := convertFeatureContent c
      (⟨(name, conv.content, conv.conversions) :: r.1.files, r.1.errors⟩, r.2)
    | .error e => (⟨r.1.files, (name, e) :: r.1.errors⟩, r.2)

/-- Outcome of a script run: an immediate process.exit with a nonzero code
and its message, before any unit is processed; a crash from an uncaught
walk exception after zero or more units were processed (the failure itself
recorded nowhere, the rest of the walk never run, the report never
written); or a completed run. -/
inductive ScriptOutcome (α : Type) where
  | exited : Nat → Str → ScriptOutcome α
  | crashed : Str → α → ScriptOutcome α
  | completed : α → ScriptOutcome α
  deriving DecidableEq

/-- The top-level control flow of 02-convert-features.js (lines 22-56 and
126-189): the three fatal configuration checks call process.exit(1) with a
human-readable message before any unit is processed; otherwise the walk
runs, completing or crashing as processFeatureDir dictates. -/
def script02Run (configFound configParses sourceDirFound : Bool)
    (walk : List WalkItem) : ScriptOutcome FeatReport :=
  if !configFound then
    .exited 1 "[ERROR] Configuration file not found".data
  else if !configParses then
    .exited 1 "[ERROR] Failed to parse configuration".data
  else if !sourceDirFound then
    .exited 1 "[ERROR] Source features directory not found".data
  else
    match processFeatureDir walk with
    | (rep, some e) => .crashed e rep
    | (rep, none) => .completed rep

/-- A walk whose second entry's fs.statSync throws: one converted unit, the
uncaught failure, and a unit the run never reaches. -/
def exWalkCrash : List WalkItem :=
  [.feature "a.feature".data (.ok "When x".data),
   .uncaught "b.feature".data "EACCES".data,
   .feature "c.feature".data (.ok "When y".data)]

/-! ### Predicates and fixed inputs used by the statements below. -/

/-- A line that begins, after optional leading whitespace, with And or But
followed immediately by a whitespace character (the shape of line the
And/But regex of convertFeatureContent can accept). -/
def startsAndButWs (line : Str) : Bool :=
  ["And", "But"].any (fun kw =>
    kw.data.isPrefixOf (line.dropWhile jsIsSpace) &&
    (((line.dropWhile jsIsSpace).drop 3).head?.map jsIsSpace).getD false)

/-- A line that begins, after optional leading whitespace, with the
four-character text "And " or "But " (keyword plus one space character). -/
def startsAndButSpace (line : Str) : Bool :=
  "And ".data.isPrefixOf (line.dropWhile jsIsSpace) ||
  "But ".data.isPrefixOf (line.dropWhile jsIsSpace)

/-- A rule fails on an input when its matcher rejects it or its generator
throws on its captures. -/
def ruleFails (r : StepRule) (desc : Str) (ps : List JParam) : Bool :=
  match r.matcher desc with
  | none => true
  | some caps => (r.implement caps ps).isNone

/-- A rule whose matcher accepts every input and whose generator always
throws, exercising the catch-and-continue path of the matching loop. -/
def throwRule : StepRule :=
  { matcher := fun _ => some [], implement := fun _ _ => none }

/-- A one-step Java source: an annotated logout step with an empty body. -/
def exJavaLogout : Str :=
  "@When(\"user logs out\") public void logout() \x7b\x7d".data

/-- A target with a single TODO placeholder for that step. -/
def exTsOneTodo : Str :=
  "When('user logs out', async (page) => \x7b\n  // TODO\n\x7d)".data

/-- A target with two TODO placeholders for the same step. -/
def exTsTwoTodo : Str :=
  ("When('user logs out', async (page) => \x7b\n  // TODO\n\x7d)\n\n" ++
   "When('user logs out', async (page) => \x7b\n  // TODO\n\x7d)").data

/-- A Java page class declaring the same field name twice, once in the
double-quoted QAF By.xpath form and once in the simple By.xpath form. -/
def exDupByJava : Str :=
  ("static final By f = By.xpath(xpathExpression: \"//x\"); " ++
   "static final By f = By.xpath(\"//y\");").data

/-! ### Helper lemmas about splitting, joining and the line loop. -/

theorem splitOnChar_ne_nil (sep : Char) (s : Str) : splitOnChar sep s ≠ [] := by
  induction s with
  | nil => simp [splitOnChar]
  | cons c r ih =>
    simp only [splitOnChar]
    split
    · simp
    · cases h : splitOnChar sep r <;> simp

theorem splitOnChar_not_mem (sep : Char) (s : Str) :
    ∀ l ∈ splitOnChar sep s, sep ∉ l := by
  induction s with
  | nil =>
    intro l hl
    simp [splitOnChar] at hl
    simp [hl]
  | cons c r ih =>
    intro l hl
    simp only [splitOnChar] at hl
    split at hl
    · rcases List.mem_cons.mp hl with rfl | hl
      · simp
      · exact ih l hl
    · rename_i hc
      cases h : splitOnChar sep r with
      | nil => exact absurd h (splitOnChar_ne_nil sep r)
      | cons l' ls =>
        rw [h] at hl
        rcases List.mem_cons.mp hl with rfl | hl
        · intro hmem
          rcases List.mem_cons.mp hmem with rfl | hmem
          · exact hc rfl
          · exact ih l' (h ▸ List.mem_cons_self _ _) hmem
        · exact ih l (h ▸ List.mem_cons_of_mem _ hl)

theorem splitOnChar_of_not_mem {sep : Char} {l : Str} (h : sep ∉ l) :
    splitOnChar sep l = [l] := by
  induction l with
  | nil => rfl
  | cons c r ih =>
    simp only [List.mem_cons, not_or] at h
    simp only [splitOnChar]
    rw [if_neg (fun e => h.1 e.symm), ih h.2]

theorem splitOnChar_append {sep : Char} {t : Str} : ∀ {l : Str}, sep ∉ l →
    splitOnChar sep (l ++ sep :: t) = l :: splitOnChar sep t := by
  intro l
  induction l with
  | nil => intro _; simp [splitOnChar]
  | cons c r ih =>
    intro h
    simp only [List.mem_cons, not_or] at h
    simp only [List.cons_append, splitOnChar]
    rw [if_neg (fun e => h.1 e.symm), List.append_eq, ih h.2]

theorem splitNl_joinNl : ∀ (ls : List Str), ls ≠ [] →
    (∀ l ∈ ls, '\n' ∉ l) → splitNl (joinNl ls) = ls
  | [], h, _ => absurd rfl h
  | [l], _, hl => by
    show splitOnChar '\n' (joinNl [l]) = [l]
    have : joinNl [l] = l := rfl
    rw [this, splitOnChar_of_not_mem (hl l (by simp))]
  | l :: l₂ :: rest, _, hl => by
    show splitOnChar '\n' (joinNl (l :: l₂ :: rest)) = l :: l₂ :: rest
    have hj : joinNl (l :: l₂ :: rest) = l ++ '\n' :: joinNl (l₂ :: rest) := rfl
    rw [hj, splitOnChar_append (hl l (by simp))]
    have := splitNl_joinNl (l₂ :: rest) (by simp)
      (fun x hx => hl x (List.mem_cons_of_mem _ hx))
    rw [show splitOnChar '\n' (joinNl (l₂ :: rest)) = splitNl (joinNl (l₂ :: rest)) from rfl,
      this]

theorem convertLines_length : ∀ (k : Str) (ls : List Str),
    (convertLines k ls).1.length = ls.length
  | _, [] => rfl
  | k, line :: rest => by
    simp only [convertLines]
    split
    · simp [convertLines_length _ rest]
    · split
      · split
        · simp [convertLines_length _ rest]
        · simp [convertLines_length _ rest]
      · simp [convertLines_length _ rest]

theorem matchStepKeywordLine_inv {kws : List String} {line ws kw rest : Str}
    (h : matchStepKeywordLine kws line = some (ws, kw, rest)) :
    ws = line.takeWhile jsIsSpace ∧
    (∃ k ∈ kws, kw = k.data ∧
      k.data.isPrefixOf (line.dropWhile jsIsSpace) ∧
      ((line.dropWhile jsIsSpace).drop k.length).takeWhile jsIsSpace ≠ []) ∧
    rest.any (fun c => c = '\n' || c = '\r') = false ∧
    rest = ((line.dropWhile jsIsSpace).drop kw.length).dropWhile jsIsSpace := by
  simp only [matchStepKeywordLine] at h
  split at h
  · exact absurd h (by simp)
  · rename_i k hf
    split at h
    · exact absurd h (by simp)
    · rename_i hsp
      split at h
      · exact absurd h (by simp)
      · rename_i hnl
        simp only [Option.some.injEq, Prod.mk.injEq] at h
        obtain ⟨h1, h2, h3⟩ := h
        refine ⟨h1.symm, ⟨k, List.mem_of_find?_eq_some hf, h2.symm,
          by simpa using List.find?_some hf, ?_⟩, ?_, ?_⟩
        · intro he
          exact hsp (by simp [List.isEmpty_iff, he])
        · rw [← h3]
          exact Bool.eq_false_iff.mpr hnl
        · rw [← h3, ← h2]
          rfl

theorem takeWhile_ne_nil_head {l : Str} {p : Char → Bool}
    (h : l.takeWhile p ≠ []) : ((l.head?.map p).getD false) = true := by
  cases l with
  | nil => simp [List.takeWhile] at h
  | cons a t =>
    by_cases ha : p a
    · simp [ha]
    · rw [List.takeWhile_cons, if_neg ha] at h
      exact absurd rfl h

theorem stepKw_cases {line ws kw rest : Str}
    (h : matchStepKeywordLine ["Given", "When", "Then"] line = some (ws, kw, rest)) :
    kw = "Given".data ∨ kw = "When".data ∨ kw = "Then".data := by
  obtain ⟨-, ⟨k, hk, rfl, -, -⟩, -, -⟩ := matchStepKeywordLine_inv h
  rcases List.mem_cons.mp hk with rfl | hk
  · exact Or.inl rfl
  rcases List.mem_cons.mp hk with rfl | hk
  · exact Or.inr (Or.inl rfl)
  rcases List.mem_cons.mp hk with rfl | hk
  · exact Or.inr (Or.inr rfl)
  · simp at hk

theorem andBut_startsAndButWs {line ws kw rest : Str}
    (h : matchStepKeywordLine ["And", "But"] line = some (ws, kw, rest)) :
    startsAndButWs line = true := by
  obtain ⟨-, ⟨k, hk, rfl, hpre, hsp⟩, -, -⟩ := matchStepKeywordLine_inv h
  have hhead := takeWhile_ne_nil_head hsp
  unfold startsAndButWs
  simp only [List.any_eq_true]
  rcases List.mem_cons.mp hk with rfl | hk
  · exact ⟨"And", by simp, by
      simp only [Bool.and_eq_true]
      exact ⟨hpre, by simpa using hhead⟩⟩
  rcases List.mem_cons.mp hk with rfl | hk
  · exact ⟨"But", by simp, by
      simp only [Bool.and_eq_true]
      exact ⟨hpre, by simpa using hhead⟩⟩
  · simp at hk

theorem convertLines_no_newline : ∀ (ls : List Str) (k : Str),
    '\n' ∉ k → (∀ l ∈ ls, '\n' ∉ l) →
    ∀ l' ∈ (convertLines k ls).1, '\n' ∉ l'
  | [], _, _, _ => by simp [convertLines]
  | line :: rest, k, hk, hl => by
    have hline : '\n' ∉ line := hl line (by simp)
    have hrest : ∀ l ∈ rest, '\n' ∉ l := fun x hx => hl x (List.mem_cons_of_mem _ hx)
    intro l' hl'
    simp only [convertLines] at hl'
    split at hl'
    · rename_i ws kw rst hkwm
      rcases List.mem_cons.mp hl' with rfl | hl'
      · exact hline
      · have hkw : '\n' ∉ kw := by
          rcases stepKw_cases hkwm with rfl | rfl | rfl <;> decide
        exact convertLines_no_newline rest kw hkw hrest l' hl'
    · split at hl'
      · rename_i indent kw stepText habm
        split at hl'
        · rcases List.mem_cons.mp hl' with rfl | hl'
          · obtain ⟨hws, -, hany, hrst⟩ := matchStepKeywordLine_inv habm
            simp only [List.mem_append, List.mem_cons, not_or]
            refine ⟨⟨?_, ?_⟩, ?_, ?_⟩
            · intro hc
              exact hline ((List.takeWhile_sublist _).mem (hws ▸ hc))
            · exact hk
            · decide
            · intro hc
              have hx : stepText.any (fun c => c = '\n' || c = '\r') = true :=
                List.any_eq_true.mpr ⟨'\n', hc, by decide⟩
              rw [hany] at hx
              exact Bool.false_ne_true hx
          · exact convertLines_no_newline rest k hk hrest l' hl'
        · rcases List.mem_cons.mp hl' with rfl | hl'
          · exact hline
          · have hlk : '\n' ∉ (if matchResetLine line then [] else k) := by
              split
              · simp
              · exact hk
            exact convertLines_no_newline rest _ hlk hrest l' hl'
      · rcases List.mem_cons.mp hl' with rfl | hl'
        · exact hline
        · have hlk : '\n' ∉ (if matchResetLine line then [] else k) := by
            split
            · simp
            · exact hk
          exact convertLines_no_newline rest _ hlk hrest l' hl'

theorem convertLines_frame : ∀ (ls : List Str) (k : Str) (i : Nat),
    startsAndButWs (ls.getD i []) = false →
    (convertLines k ls).1.getD i [] = ls.getD i []
  | [], _, _, _ => by simp [convertLines]
  | line :: rest, k, i, h => by
    simp only [convertLines]
    cases i with
    | zero =>
      split
      · simp
      · split
        · rename_i habm
          split
          · exact absurd (andBut_startsAndButWs habm) (by simpa using h)
          · simp
        · simp
    | succ i =>
      have h' : startsAndButWs (rest.getD i []) = false := by simpa using h
      split
      · simpa using convertLines_frame rest _ i h'
      · split
        · split
          · simpa using convertLines_frame rest _ i h'
          · simpa using convertLines_frame rest _ i h'
        · simpa using convertLines_frame rest _ i h'

theorem escapeTpl_id {s : Str} (h : ∀ c ∈ s, c ≠ backtickChar ∧ c ≠ '$') :
    escapeTpl s = s := by
  induction s with
  | nil => rfl
  | cons c r ih =>
    have hc := h c (by simp)
    have he : escapeTpl (c :: r)
        = if c = backtickChar then '\\' :: backtickChar :: escapeTpl r
          else if c = '$' then '\\' :: '$' :: escapeTpl r
          else c :: escapeTpl r := rfl
    rw [he, if_neg hc.1, if_neg hc.2,
      ih (fun x hx => h x (List.mem_cons_of_mem _ hx))]

/-! ### The claims. -/

/-- C6: in convertFeatureContent, an And line whose nearest preceding step
keyword line is a When line converts to that line with the inherited When
keyword and the same leading indentation (likewise for But); an And line
with no Given/When/Then in scope, at the start of the file or after a
Scenario line with no step keyword since, is passed through unchanged. -/
theorem c6_and_but_conversion :
    convertFeatureContent
        "Given a\n  When user opens the page\n  And user clicks Save".data
      = ⟨"Given a\n  When user opens the page\n  When user clicks Save".data, 1⟩ ∧
    convertFeatureContent "When x\nBut y".data = ⟨"When x\nWhen y".data, 1⟩ ∧
    convertFeatureContent "And user clicks Save".data
      = ⟨"And user clicks Save".data, 0⟩ ∧
    convertFeatureContent "When x\nScenario: s\nAnd user clicks Save".data
      = ⟨"When x\nScenario: s\nAnd user clicks Save".data, 0⟩ := by
  refine ⟨by decide, by decide, by decide, by decide⟩

/-- C9: the rule cascade sends //button[text()='Submit'] to the button-role
locator named Submit, classified semantic. -/
theorem c9_button_submit :
    (convertXPathToPlaywright "//button[text()='Submit']".data).locator
      = "page.getByRole('button', \x7b name: 'Submit' \x7d)".data ∧
    (convertXPathToPlaywright "//button[text()='Submit']".data).type
      = LocType.semantic := by
  refine ⟨by decide, by decide⟩

/-- C10 (counterexample): the line "And" followed by a tab does not begin
with the four-character text "And " after leading whitespace, yet
convertFeatureContent rewrites it (the And/But regex accepts any whitespace
after the keyword), so the claim's literal reading fails on this input. -/
theorem c10_counterexample :
    startsAndButSpace ((splitNl "When a\nAnd\tb".data).getD 1 []) = false ∧
    (splitNl (convertFeatureContent "When a\nAnd\tb".data).content).getD 1 []
      ≠ (splitNl "When a\nAnd\tb".data).getD 1 [] := by
  refine ⟨by decide, by decide⟩

/-- C10 (amended): convertFeatureContent preserves the number of lines, and
every line that does not begin, after optional leading whitespace, with And
or But followed by a whitespace character is copied verbatim at the same
position, whatever its context. -/
theorem c10_frame (content : Str) (i : Nat)
    (h : startsAndButWs ((splitNl content).getD i []) = false) :
    (splitNl (convertFeatureContent content).content).length
      = (splitNl content).length ∧
    (splitNl (convertFeatureContent content).content).getD i []
      = (splitNl content).getD i [] := by
  have hexp : (convertFeatureContent content).content
      = joinNl (convertLines [] (splitNl content)).1 := rfl
  have hnn : ∀ l' ∈ (convertLines [] (splitNl content)).1, '\n' ∉ l' :=
    convertLines_no_newline _ [] (by simp) (splitOnChar_not_mem '\n' content)
  have hne : (convertLines [] (splitNl content)).1 ≠ [] := by
    intro he
    have hlen := convertLines_length [] (splitNl content)
    rw [he] at hlen
    exact splitOnChar_ne_nil '\n' content (List.length_eq_zero.mp hlen.symm)
  have hsj : splitNl (convertFeatureContent content).content
      = (convertLines [] (splitNl content)).1 := by
    rw [hexp]
    exact splitNl_joinNl _ hne hnn
  constructor
  · rw [hsj, convertLines_length]
  · rw [hsj]
    exact convertLines_frame _ [] i h

theorem c10_frame_witness :
    (splitNl (convertFeatureContent "Given a\n# note\nAnd b".data).content).length
      = (splitNl "Given a\n# note\nAnd b".data).length ∧
    (splitNl (convertFeatureContent "Given a\n# note\nAnd b".data).content).getD 1 []
      = (splitNl "Given a\n# note\nAnd b".data).getD 1 [] :=
  c10_frame "Given a\n# note\nAnd b".data 1 (by decide)

/-- C2 (counterexample): for the unmatched expression
//div[@class='x']/span[$1] the fallback escapes the dollar sign, so the
generated text does not embed the untranslated original expression
literally. -/
theorem c2_counterexample :
    firstXRule xpathRules "//div[@class='x']/span[$1]".data = none ∧
    ¬ ("//div[@class='x']/span[$1]".data <:+:
      (convertXPathToPlaywright "//div[@class='x']/span[$1]".data).locator) := by
  refine ⟨by decide, by decide⟩

/-- C2 (amended): for every input expression (already clean) matched by no
rule and containing neither a backtick nor a dollar sign, the fallback
result embeds the untranslated original expression literally in its
generated text and is classified as the fallback (xpath) kind; backticks and
dollar signs are backslash-escaped instead. -/
theorem c2_amended (x : Str) (hclean : cleanXPath x = x)
    (hnone : firstXRule xpathRules x = none)
    (hchars : ∀ c ∈ x, c ≠ backtickChar ∧ c ≠ '$') :
    x <:+: (convertXPathToPlaywright x).locator ∧
    (convertXPathToPlaywright x).type = LocType.xpath := by
  have hfb : convertXPathToPlaywright x = xpathFallback x := by
    show convertXPathToPlaywrightWith xpathRules x = xpathFallback x
    unfold convertXPathToPlaywrightWith
    rw [hclean]
    simp only [hnone]
  rw [hfb]
  constructor
  · show x <:+: "page.locator(".data ++ [backtickChar] ++ escapeTpl x ++
      [backtickChar] ++ ")".data
    rw [escapeTpl_id hchars]
    exact ⟨"page.locator(".data ++ [backtickChar], [backtickChar] ++ ")".data,
      by simp⟩
  · rfl

theorem c2_amended_witness :
    "//div[@class='x']/span[2]/a".data <:+:
      (convertXPathToPlaywright "//div[@class='x']/span[2]/a".data).locator ∧
    (convertXPathToPlaywright "//div[@class='x']/span[2]/a".data).type
      = LocType.xpath :=
  c2_amended "//div[@class='x']/span[2]/a".data (by decide) (by decide) (by decide)

/-- C1: rule matching is first-match-wins in declaration order, over
matchStepPattern's ordered iteration of the stepPatterns table and over
convertXPathToPlaywright's ordered pattern cascade: for every input and
ordered rule list, whenever every earlier rule's matcher rejects the input
and a rule's matcher accepts it, the result produced is that rule's
generator output. -/
theorem c1_first_match_wins :
    (∀ (pre post : List StepRule) (r : StepRule) (desc : Str) (ps : List JParam)
        (caps : Caps) (out : Str),
      pre.all (fun r' => (r'.matcher desc).isNone) = true →
      r.matcher desc = some caps →
      r.implement caps ps = some out →
      matchStepPatternWith (pre ++ r :: post) desc ps = some out) ∧
    (∀ (pre post : List XRule) (r : XRule) (x : Str) (caps : Caps),
      pre.all (fun r' => (r'.matcher (cleanXPath x)).isNone) = true →
      r.matcher (cleanXPath x) = some caps →
      convertXPathToPlaywrightWith (pre ++ r :: post) x
        = r.gen (cleanXPath x) caps) := by
  constructor
  · intro pre
    induction pre with
    | nil =>
      intro post r desc ps caps out _ hm hi
      simp only [List.nil_append, matchStepPatternWith, hm, hi]
    | cons r' pre ih =>
      intro post r desc ps caps out hall hm hi
      simp only [List.all_cons, Bool.and_eq_true] at hall
      have hnone : r'.matcher desc = none := Option.isNone_iff_eq_none.mp hall.1
      simp only [List.cons_append, matchStepPatternWith, hnone]
      exact ih post r desc ps caps out hall.2 hm hi
  · intro pre
    induction pre with
    | nil =>
      intro post r x caps _ hm
      show convertXPathToPlaywrightWith (r :: post) x = _
      unfold convertXPathToPlaywrightWith
      simp only [firstXRule, hm]
    | cons r' pre ih =>
      intro post r x caps hall hm
      simp only [List.all_cons, Bool.and_eq_true] at hall
      have hnone : r'.matcher (cleanXPath x) = none :=
        Option.isNone_iff_eq_none.mp hall.1
      have h2 := ih post r x caps hall.2 hm
      show convertXPathToPlaywrightWith (r' :: (pre ++ r :: post)) x = _
      unfold convertXPathToPlaywrightWith at h2 ⊢
      simp only [firstXRule, hnone] at h2 ⊢
      exact h2

theorem c1_witness :
    matchStepPattern "user clicks button Save".data []
      = some "await page.getByRole('button', \x7b name: /Save/i \x7d).click();".data ∧
    convertXPathToPlaywright "//a[text()='Go']".data
      = ⟨"page.getByRole('link', \x7b name: 'Go' \x7d)".data, LocType.semantic,
         "//a[text()='Go']".data, none⟩ := by
  constructor
  · have e : stepPatterns
        = stepPatterns.take 2 ++ stepPatterns.get ⟨2, by decide⟩ ::
          stepPatterns.drop 3 := rfl
    show matchStepPatternWith stepPatterns _ _ = _
    rw [e]
    exact c1_first_match_wins.1 _ _ _ _ _ [(1, "button Save".data)] _
      (by decide) (by decide) (by decide)
  · have e : xpathRules
        = xpathRules.take 2 ++ xpathRules.get ⟨2, by decide⟩ ::
          xpathRules.drop 3 := rfl
    have h := c1_first_match_wins.2 (xpathRules.take 2) (xpathRules.drop 3)
      (xpathRules.get ⟨2, by decide⟩) "//a[text()='Go']".data [(1, "Go".data)]
      (by decide) (by decide)
    show convertXPathToPlaywrightWith xpathRules _ = _
    rw [e, h]
    decide

/-- C5: a rule whose matcher accepts the input but whose generator throws
during evaluation behaves exactly as if the rule had not matched: the loop
continues with the strictly later rules (the rule might as well be absent),
and when every rule fails the loop returns the no-match marker, the caller
then recording a skip for the unit rather than the unit aborting with an
error. -/
theorem c5_generator_throw :
    (∀ (pre post : List StepRule) (r : StepRule) (desc : Str) (ps : List JParam)
        (caps : Caps),
      r.matcher desc = some caps →
      r.implement caps ps = none →
      matchStepPatternWith (pre ++ r :: post) desc ps
        = matchStepPatternWith (pre ++ post) desc ps) ∧
    (∀ (rules : List StepRule) (desc : Str) (ps : List JParam),
      rules.all (fun r => ruleFails r desc ps) = true →
      matchStepPatternWith rules desc ps = none) := by
  constructor
  · intro pre
    induction pre with
    | nil =>
      intro post r desc ps caps hm hi
      simp only [List.nil_append, matchStepPatternWith, hm, hi]
    | cons r' pre ih =>
      intro post r desc ps caps hm hi
      simp only [List.cons_append, matchStepPatternWith]
      cases hr' : r'.matcher desc with
      | none =>
        dsimp only
        exact ih post r desc ps caps hm hi
      | some c =>
        dsimp only
        cases hi' : r'.implement c ps with
        | none =>
          dsimp only
          exact ih post r desc ps caps hm hi
        | some o => dsimp only
  · intro rules
    induction rules with
    | nil =>
      intro desc ps _
      rfl
    | cons r rules ih =>
      intro desc ps hall
      simp only [List.all_cons, Bool.and_eq_true] at hall
      have h1 := hall.1
      unfold ruleFails at h1
      simp only [matchStepPatternWith]
      cases hr : r.matcher desc with
      | none =>
        dsimp only
        exact ih desc ps hall.2
      | some caps =>
        dsimp only
        rw [hr] at h1
        simp only at h1
        rw [Option.isNone_iff_eq_none.mp h1]
        exact ih desc ps hall.2

theorem c5_witness :
    matchStepPatternWith (throwRule :: stepPatterns) "user logs out".data []
      = matchStepPatternWith stepPatterns "user logs out".data [] ∧
    matchStepPatternWith [throwRule] "user clicks Save".data [] = none := by
  constructor
  · exact c5_generator_throw.1 [] stepPatterns throwRule "user logs out".data
      [] [] rfl rfl
  · exact c5_generator_throw.2 [throwRule] "user clicks Save".data [] (by decide)

theorem findBodyEnd_fuel_eq (content : Str) :
    ∀ (fuel endIndex braceCount : Nat),
      content.length - endIndex ≤ fuel →
      findBodyEnd content fuel endIndex braceCount
        = findBodyEnd content (content.length - endIndex) endIndex braceCount := by
  intro fuel
  induction fuel with
  | zero =>
    intro e b h
    rw [show content.length - e = 0 from by omega]
  | succ fuel ih =>
    intro e b h
    by_cases hc : b = 0 ∨ content.length ≤ e
    · cases hle : content.length - e with
      | zero => simp only [findBodyEnd, if_pos hc]
      | succ k => simp only [findBodyEnd, if_pos hc]
    · have he : e < content.length := by
        rcases Nat.lt_or_ge e content.length with h' | h'
        · exact h'
        · exact absurd (Or.inr h') hc
      have hfe : content.length - e = (content.length - (e + 1)) + 1 := by omega
      rw [hfe]
      simp only [findBodyEnd, if_neg hc]
      exact ih (e + 1) _ (by omega)

theorem findBodyEnd_le (content : Str) :
    ∀ (fuel e b : Nat), findBodyEnd content fuel e b ≤ max e content.length := by
  intro fuel
  induction fuel with
  | zero =>
    intro e b
    exact le_max_left _ _
  | succ fuel ih =>
    intro e b
    simp only [findBodyEnd]
    split
    · exact le_max_left _ _
    · rename_i hc
      have he : e < content.length := by
        rcases Nat.lt_or_ge e content.length with h' | h'
        · exact h'
        · exact absurd (Or.inr h') hc
      calc findBodyEnd content fuel (e + 1) _
          ≤ max (e + 1) content.length := ih _ _
        _ = content.length := max_eq_right (by omega)
        _ ≤ max e content.length := le_max_right _ _

/-- C4: the brace-depth method-body scan terminates within input-length-
bounded steps on every input, balanced or not: it advances one character
per iteration and stops when the depth returns to zero or the end of the
text is reached, so any iteration budget of at least the remaining input
length yields the same, already terminated, result, and that result never
passes the end of the text. -/
theorem c4_brace_scan_bounded (content : Str) (startIndex braceCount fuel : Nat)
    (h : content.length - startIndex ≤ fuel) :
    findBodyEnd content fuel startIndex braceCount
      = findBodyEnd content (content.length - startIndex) startIndex braceCount ∧
    findBodyEnd content fuel startIndex braceCount
      ≤ max startIndex content.length :=
  ⟨findBodyEnd_fuel_eq content fuel startIndex braceCount h,
   findBodyEnd_le content fuel startIndex braceCount⟩

theorem c4_witness :
    findBodyEnd "\x7b \x7b".data 50 0 1
      = findBodyEnd "\x7b \x7b".data ("\x7b \x7b".data.length - 0) 0 1 ∧
    findBodyEnd "\x7b \x7b".data 50 0 1 ≤ max 0 "\x7b \x7b".data.length :=
  c4_brace_scan_bounded "\x7b \x7b".data 0 1 50 (by decide)

theorem updFold_noMatch : ∀ (steps : List JStep) (acc : UpdResult),
    (∀ s ∈ steps, reTest (todoPatternRE s.description) acc.content = false) →
    steps.foldl updStep acc = acc
  | [], _, _ => rfl
  | s :: steps, acc, h => by
    have hs := h s (by simp)
    have hone : updStep acc s = acc := by
      simp [updStep, hs]
    rw [List.foldl_cons, hone]
    exact updFold_noMatch steps acc (fun x hx => h x (List.mem_cons_of_mem _ hx))

/-- C3 (counterexample): on a target holding two TODO placeholders for the
same step, a second run of the rewrite changes the content again (the first
run consumed only the first placeholder), so running twice differs from
running once. -/
theorem c3_counterexample :
    (updateTypeScriptStepFile
        (updateTypeScriptStepFile exTsTwoTodo exJavaLogout).content
        exJavaLogout).content
      ≠ (updateTypeScriptStepFile exTsTwoTodo exJavaLogout).content := by
  decide

/-- C3 (amended): matching is scoped strictly to the TODO placeholder
pattern: on a target where no parsed step's placeholder pattern matches, the
rewrite returns the content byte-for-byte unchanged and tallies nothing;
consequently running the rewrite twice yields the same content as running it
once whenever the once-rewritten content no longer matches any step's
placeholder pattern (in particular whenever each placeholder occurred at
most once in the pristine target). -/
theorem c3_amended :
    (∀ (c java : Str),
      (∀ s ∈ parseJavaSteps java,
        reTest (todoPatternRE s.description) c = false) →
      updateTypeScriptStepFile c java = ⟨c, 0, 0⟩) ∧
    (∀ (ts java : Str),
      (∀ s ∈ parseJavaSteps java,
        reTest (todoPatternRE s.description)
          (updateTypeScriptStepFile ts java).content = false) →
      (updateTypeScriptStepFile
          (updateTypeScriptStepFile ts java).content java).content
        = (updateTypeScriptStepFile ts java).content) := by
  have h1 : ∀ (c java : Str),
      (∀ s ∈ parseJavaSteps java,
        reTest (todoPatternRE s.description) c = false) →
      updateTypeScriptStepFile c java = ⟨c, 0, 0⟩ :=
    fun c java h => updFold_noMatch _ _ h
  exact ⟨h1, fun ts java h => by rw [h1 _ _ h]⟩

theorem c3_amended_witness :
    (updateTypeScriptStepFile
        (updateTypeScriptStepFile exTsOneTodo exJavaLogout).content
        exJavaLogout).content
      = (updateTypeScriptStepFile exTsOneTodo exJavaLogout).content :=
  c3_amended.2 exTsOneTodo exJavaLogout (by decide)

theorem updFold_tally_le : ∀ (steps : List JStep) (acc : UpdResult),
    (steps.foldl updStep acc).stepsImplemented
      + (steps.foldl updStep acc).stepsSkipped
      ≤ acc.stepsImplemented + acc.stepsSkipped + steps.length
  | [], acc => by simp
  | s :: steps, acc => by
    have hstep : (updStep acc s).stepsImplemented + (updStep acc s).stepsSkipped
        ≤ acc.stepsImplemented + acc.stepsSkipped + 1 := by
      by_cases hre : reTest (todoPatternRE s.description) acc.content
      · cases hmp : matchStepPattern s.description s.params with
        | none =>
          simp [updStep, hre, hmp]
          omega
        | some impl =>
          simp [updStep, hre, hmp]
          omega
      · simp [updStep, hre]
    have hrec := updFold_tally_le steps (updStep acc s)
    rw [List.foldl_cons]
    simp only [List.length_cons]
    omega

theorem foldl_preserves {α β : Type} (P : α → Prop) (f : α → β → α)
    (hf : ∀ a b, P a → P (f a b)) :
    ∀ (l : List β) (a : α), P a → P (l.foldl f a)
  | [], _, h => h
  | b :: l, a, h => foldl_preserves P f hf l (f a b) (hf a b h)

theorem bumpStat_sum (st : PageStats) (t : LocType) :
    (bumpStat st t).semantic + (bumpStat st t).css + (bumpStat st t).xpath
      = st.semantic + st.css + st.xpath + 1 := by
  cases t <;> simp [bumpStat] <;> omega

theorem locTallyInv_append (acc : List PageLocator × PageStats)
    (l : PageLocator) (t : LocType) (h : locTallyInv acc) :
    locTallyInv (acc.1 ++ [l], bumpStat acc.2 t) := by
  unfold locTallyInv at h ⊢
  simp only [bumpStat_sum, List.length_append, List.length_cons,
    List.length_nil]
  omega

theorem locTallyInv_push (acc : List PageLocator × PageStats) (nameX : Str × Str)
    (h : locTallyInv acc) : locTallyInv (pushXpathLoc acc nameX) :=
  locTallyInv_append acc _ _ h

theorem locTallyInv_pushD (acc : List PageLocator × PageStats)
    (nameX : Str × Str) (h : locTallyInv acc) :
    locTallyInv (pushXpathLocDedup acc nameX) := by
  unfold pushXpathLocDedup
  split
  · exact h
  · exact locTallyInv_push acc nameX h

theorem pageLocAccum_inv (content : Str) : locTallyInv (pageLocAccum content) := by
  simp only [pageLocAccum]
  apply foldl_preserves _ _ (fun a b h => locTallyInv_append a _ _ h)
  apply foldl_preserves _ _ (fun a b h => locTallyInv_append a _ _ h)
  apply foldl_preserves _ _ (fun a b h => locTallyInv_push a _ h)
  apply foldl_preserves _ _ (fun a b h => locTallyInv_pushD a _ h)
  apply foldl_preserves _ _ (fun a b h => locTallyInv_pushD a _ h)
  apply foldl_preserves _ _ (fun a b h => locTallyInv_push a _ h)
  show locTallyInv ([], ⟨0, 0, 0⟩)
  unfold locTallyInv
  simp

/-- C8 (counterexample): accounting misses exist in both directions the
claim covers.  A Java step whose TODO placeholder is absent from the target
is tallied neither as implemented nor as skipped although one step was fed
to the rewriter; and a page class containing two By.xpath locator
declarations for the same field name yields a single extraction entry (the
dedup guard drops the second declaration). -/
theorem c8_counterexample :
    ((updateTypeScriptStepFile "// done".data exJavaLogout).stepsImplemented = 0 ∧
     (updateTypeScriptStepFile "// done".data exJavaLogout).stepsSkipped = 0 ∧
     (parseJavaSteps exJavaLogout).length = 1) ∧
    ((parseJavaPageClass exDupByJava).locators.length = 1 ∧
     (execAll qafXpathRE exDupByJava).length = 1 ∧
     (execAll simpleXpathRE exDupByJava).length = 1) := by
  refine ⟨⟨by decide, by decide, by decide⟩, by decide, by decide, by decide⟩

/-- C8 (amended): each Java step fed to the rewriter is tallied at most once
(implemented plus skipped never exceeds the number of parsed steps; a step
whose placeholder is absent at its turn is left untallied), and every
extracted locator entry carries exactly one classification tally, so the
tallies sum to the number of entries. -/
theorem c8_amended :
    (∀ (ts java : Str),
      (updateTypeScriptStepFile ts java).stepsImplemented
        + (updateTypeScriptStepFile ts java).stepsSkipped
        ≤ (parseJavaSteps java).length) ∧
    (∀ (content : Str),
      (parseJavaPageClass content).stats.semantic
        + (parseJavaPageClass content).stats.css
        + (parseJavaPageClass content).stats.xpath
        = (parseJavaPageClass content).locators.length) := by
  constructor
  · intro ts java
    have h := updFold_tally_le (parseJavaSteps java) ⟨ts, 0, 0⟩
    simpa using h
  · intro content
    have h := pageLocAccum_inv content
    unfold locTallyInv at h
    exact h

theorem processFeatureDir_no_uncaught : ∀ (walk : List WalkItem),
    walk.all (fun i => !isUncaughtItem i) = true →
    (processFeatureDir walk).2 = none ∧
    (processFeatureDir walk).1.files.length
      + (processFeatureDir walk).1.errors.length
      = (walk.filter isFeatureItem).length ∧
    ∀ (name e : Str), WalkItem.feature name (.error e) ∈ walk →
      (name, e) ∈ (processFeatureDir walk).1.errors
  | [], _ => ⟨rfl, rfl, by simp⟩
  | item :: rest, h => by
    simp only [List.all_cons, Bool.and_eq_true] at h
    obtain ⟨ih1, ih2, ih3⟩ := processFeatureDir_no_uncaught rest h.2
    cases item with
    | uncaught n e =>
      exact absurd h.1 (by simp [isUncaughtItem])
    | skipped n =>
      refine ⟨?_, ?_, ?_⟩
      · simpa only [processFeatureDir] using ih1
      · simpa only [processFeatureDir, List.filter_cons, isFeatureItem] using ih2
      · intro name e hmem
        simp only [List.mem_cons] at hmem
        rcases hmem with hmem | hmem
        · exact absurd hmem (by simp)
        · simpa only [processFeatureDir] using ih3 name e hmem
    | feature n content =>
      cases content with
      | ok c =>
        refine ⟨?_, ?_, ?_⟩
        · simpa only [processFeatureDir] using ih1
        · simp only [processFeatureDir, List.filter_cons, isFeatureItem,
            if_true, List.length_cons]
          omega
        · intro name e hmem
          simp only [List.mem_cons] at hmem
          rcases hmem with hmem | hmem
          · exact absurd hmem (by simp)
          · simpa only [processFeatureDir] using ih3 name e hmem
      | error er =>
        refine ⟨?_, ?_, ?_⟩
        · simpa only [processFeatureDir] using ih1
        · simp only [processFeatureDir, List.filter_cons, isFeatureItem,
            if_true, List.length_cons]
          omega
        · intro name e hmem
          simp only [List.mem_cons] at hmem
          rcases hmem with hmem | hmem
          · simp only [WalkItem.feature.injEq, Except.error.injEq] at hmem
            simp only [processFeatureDir]
            rw [hmem.1, hmem.2]
            exact List.mem_cons_self _ _
          · simp only [processFeatureDir]
            exact List.mem_cons_of_mem _ (ih3 name e hmem)

theorem processFeatureDir_crash : ∀ (pre : List WalkItem) (name e : Str)
    (post : List WalkItem),
    pre.all (fun i => !isUncaughtItem i) = true →
    processFeatureDir (pre ++ .uncaught name e :: post)
      = ((processFeatureDir pre).1, some e)
  | [], _, _, _, _ => rfl
  | item :: pre, name, e, post, h => by
    simp only [List.all_cons, Bool.and_eq_true] at h
    have ih := processFeatureDir_crash pre name e post h.2
    cases item with
    | uncaught n e' =>
      exact absurd h.1 (by simp [isUncaughtItem])
    | skipped n =>
      simpa only [List.cons_append, processFeatureDir] using ih
    | feature n content =>
      cases content with
      | ok c =>
        simp only [List.cons_append, processFeatureDir, List.append_eq, ih]
      | error er =>
        simp only [List.cons_append, processFeatureDir, List.append_eq, ih]

/-- Reduction of the top level once the three configuration checks pass. -/
theorem script02Run_valid (walk : List WalkItem) :
    script02Run true true true walk
      = match processFeatureDir walk with
        | (rep, some e) => ScriptOutcome.crashed e rep
        | (rep, none) => ScriptOutcome.completed rep := rfl

/-- C7 (counterexample): with a valid configuration, a walk whose second
entry's fs.statSync throws outside the per-file try/catch crashes the whole
run: only the first of the walk's two .feature units was processed, the
failure is recorded in no error list (errors stay empty), and the last
unit is never reached — refuting that every non-configuration error is
caught per unit, recorded, and never aborts the rest of the run. -/
theorem c7_counterexample :
    script02Run true true true exWalkCrash
      = ScriptOutcome.crashed "EACCES".data
          ⟨[("a.feature".data, "When x".data, 0)], []⟩ ∧
    (exWalkCrash.filter isFeatureItem).length = 2 := by
  refine ⟨by decide, by decide⟩

/-- C7 (amended): the two-tier behavior holds for configuration errors and
for the .feature units themselves, but not for the walk's own fs calls.
(1) A missing or unparseable config, or a missing source directory, exits
immediately with code 1 and a human-readable message before any unit is
processed.  (2) On a walk whose fs calls all succeed the run completes:
a .feature unit whose processing raises is recorded under errors and never
aborts the rest, outputs and errors together accounting for every .feature
unit.  (3) But an exception from fs.statSync, fs.readdirSync or
fs.mkdirSync, raised outside the per-file try/catch, crashes the run at
that point: units before it keep their outcomes, the failure is recorded
nowhere, and the rest of the walk is never processed. -/
theorem c7_amended :
    (∀ (cf cp sd : Bool) (walk : List WalkItem),
      cf = false ∨ cp = false ∨ sd = false →
      ∃ msg, script02Run cf cp sd walk = .exited 1 msg) ∧
    (∀ (walk : List WalkItem),
      walk.all (fun i => !isUncaughtItem i) = true →
      ∃ rep, script02Run true true true walk = .completed rep ∧
        rep.files.length + rep.errors.length
          = (walk.filter isFeatureItem).length ∧
        ∀ (name e : Str), WalkItem.feature name (.error e) ∈ walk →
          (name, e) ∈ rep.errors) ∧
    (∀ (pre : List WalkItem) (name e : Str) (post : List WalkItem),
      pre.all (fun i => !isUncaughtItem i) = true →
      script02Run true true true (pre ++ .uncaught name e :: post)
        = .crashed e (processFeatureDir pre).1) := by
  refine ⟨?_, ?_, ?_⟩
  · rintro cf cp sd walk (rfl | rfl | rfl)
    · exact ⟨_, rfl⟩
    · cases cf
      · exact ⟨_, rfl⟩
      · exact ⟨_, rfl⟩
    · cases cf
      · exact ⟨_, rfl⟩
      · cases cp
        · exact ⟨_, rfl⟩
        · exact ⟨_, rfl⟩
  · intro walk h
    obtain ⟨h1, h2, h3⟩ := processFeatureDir_no_uncaught walk h
    refine ⟨(processFeatureDir walk).1, ?_, h2, h3⟩
    rw [script02Run_valid,
      show processFeatureDir walk = ((processFeatureDir walk).1, none) from
        Prod.ext rfl h1]
  · intro pre name e post hpre
    rw [script02Run_valid, processFeatureDir_crash pre name e post hpre]

theorem c7_amended_witness :
    (∃ msg, script02Run false true true [] = ScriptOutcome.exited 1 msg) ∧
    (∃ rep, script02Run true true true
        [WalkItem.feature "a.feature".data (.ok "When x\nAnd y".data),
         WalkItem.skipped "readme.txt".data,
         WalkItem.feature "b.feature".data (.error "EACCES".data)]
        = .completed rep ∧
      rep.files.length + rep.errors.length
        = (([WalkItem.feature "a.feature".data (.ok "When x\nAnd y".data),
            WalkItem.skipped "readme.txt".data,
            WalkItem.feature "b.feature".data (.error "EACCES".data)]).filter
            isFeatureItem).length ∧
      ∀ (name e : Str), WalkItem.feature name (.error e) ∈
          [WalkItem.feature "a.feature".data (.ok "When x\nAnd y".data),
           WalkItem.skipped "readme.txt".data,
           WalkItem.feature "b.feature".data (.error "EACCES".data)] →
        (name, e) ∈ rep.errors) ∧
    script02Run true true true
        ([WalkItem.feature "a.feature".data (.ok "When x".data)] ++
          WalkItem.uncaught "sub".data "EIO".data ::
            [WalkItem.skipped "c.txt".data])
      = .crashed "EIO".data
          (processFeatureDir
            [WalkItem.feature "a.feature".data (.ok "When x".data)]).1 :=
  ⟨c7_amended.1 false true true [] (Or.inl rfl),
   c7_amended.2.1
     [WalkItem.feature "a.feature".data (.ok "When x\nAnd y".data),
      WalkItem.skipped "readme.txt".data,
      WalkItem.feature "b.feature".data (.error "EACCES".data)] (by decide),
   c7_amended.2.2
     [WalkItem.feature "a.feature".data (.ok "When x".data)]
     "sub".data "EIO".data [WalkItem.skipped "c.txt".data] (by decide)⟩

end TestData
